import Mathlib

/-!
Verification development for the bulk wallet-generation job manager of
BulkWalletGenerator (src/src/bot.py).

The development contains two shallow embeddings, both translated directly
from the Python source:

* a *job store / controller* model (`BulkJob`, `save_jobs`/`load_jobs`
  serialization, `cmd_bulkzip` submission validation, the `/pause`,
  `/resume`, `/cancel` text commands and the `on_job_callback` inline
  controls), and

* a *worker machine* model: a small-step operational semantics of
  `_bulkzip_worker` (the generation loop with its pause busy-waits, stop
  checks, chunked CSV writing, ZIP packaging and final status assignment),
  interleaved with the controller operations via explicit action schedules.
  Derivation faults from `generate_wallet` are injected through a fault
  oracle indexed by the number of rows generated so far; the
  `run_and_report` wrapper's `except` branch (which marks the job `failed`)
  is the `crashed` program point.
-/

namespace BulkWalletGen

/-- Job lifecycle status (`BulkJob.status` in src/src/bot.py:
`"running" | "paused" | "cancelled" | "done" | "failed"`). -/
inductive Status
  | running
  | paused
  | cancelled
  | done
  | failed
deriving DecidableEq

/-- The string stored for each status by `_serialize_job`. -/
def statusStr : Status → String
  | .running => "running"
  | .paused => "paused"
  | .cancelled => "cancelled"
  | .done => "done"
  | .failed => "failed"

/-- A status is terminal when it is `done`, `cancelled` or `failed`. -/
def terminalStatus (st : Status) : Prop :=
  st = .done ∨ st = .cancelled ∨ st = .failed

instance : DecidablePred terminalStatus := fun st => by
  unfold terminalStatus; infer_instance

/-- `SUPPORTED_CHAINS` from src/src/bot.py. -/
def supportedChains : List String :=
  ["ETH", "BTC", "SOL", "BASE", "BSC", "POLYGON", "AVAXC", "TRON",
   "XRP", "DOGE", "LTC", "TON"]

/-- A `BulkJob` record (src/src/bot.py `class BulkJob`).  The in-memory
`threading.Event` signals are modelled as booleans (`is_set`ness); the
working directory and the concrete zip path list are tracked only in the
worker machine model below. -/
structure BulkJob where
  id : String
  user_id : Int
  chain : String
  count : Int
  processed : Int
  status : Status
  created_at : Int
  pause_event : Bool
  stop_event : Bool
deriving DecidableEq

/-- The `BulkJob.__init__` constructor: fresh id (a random uuid hex prefix,
passed in as `fresh`), `processed = 0`, `status = "running"`, creation time
`now`, both events cleared. -/
def mkBulkJob (fresh : String) (now : Int) (uid : Int) (chain : String)
    (count : Int) : BulkJob :=
  { id := fresh, user_id := uid, chain := chain, count := count,
    processed := 0, status := .running, created_at := now,
    pause_event := false, stop_event := false }

/-- The in-memory `_jobs` registry: an insertion-ordered map from job id to
record, as a Python `dict` is. -/
abbrev JobMap := List (String × BulkJob)

/-- `_jobs.get(job_id)`. -/
def lookupJob : JobMap → String → Option BulkJob
  | [], _ => none
  | (k, j) :: rest, i => if k = i then some j else lookupJob rest i

/-- Replace the record stored under key `i` (in-place mutation of the job
object found in the registry). -/
def setJob : JobMap → String → BulkJob → JobMap
  | [], _, _ => []
  | (k, x) :: rest, i, j =>
    if k = i then (k, j) :: rest else (k, x) :: setJob rest i j

/-- `_jobs[j.id] = j`: overwrite in place when the key exists, else append
(Python dicts preserve insertion order). -/
def upsert (m : JobMap) (j : BulkJob) : JobMap :=
  if m.any (fun p => p.1 = j.id) then
    m.map (fun p => if p.1 = j.id then (p.1, j) else p)
  else m ++ [(j.id, j)]

/-- `is_admin(uid)`: membership in `ADMIN_USER_IDS` (env-provided set,
passed in as a list). -/
def isAdminUid (admins : List Int) (uid : Int) : Bool :=
  admins.contains uid

/-- `_get_job(job_id, requester)`: `None` when the id is unknown or when the
requester is neither the owner nor an admin. -/
def getJob (m : JobMap) (jid : String) (req : Int) (admins : List Int) :
    Option BulkJob :=
  match lookupJob m jid with
  | none => none
  | some j =>
    if j.user_id ≠ req ∧ isAdminUid admins req = false then none else some j

/-- Replies of the control commands and callbacks. -/
inductive CtrlReply
  | denied                 -- "Job not found or not permitted."
  | notFound               -- callback: "Job not found"
  | notAllowed             -- callback: "Not allowed"
  | noop                   -- callback: "No-op"
  | ok (jid : String)
deriving DecidableEq

/-- `cmd_pause`: after `_get_job` succeeds, unconditionally
`j.pause_event.set(); j.status = "paused"`. -/
def cmdPause (m : JobMap) (jid : String) (req : Int) (admins : List Int) :
    CtrlReply × JobMap :=
  match getJob m jid req admins with
  | none => (.denied, m)
  | some j =>
    (.ok j.id, setJob m jid { j with pause_event := true, status := .paused })

/-- `cmd_resume`: after `_get_job` succeeds, unconditionally
`j.pause_event.clear(); j.status = "running"`. -/
def cmdResume (m : JobMap) (jid : String) (req : Int) (admins : List Int) :
    CtrlReply × JobMap :=
  match getJob m jid req admins with
  | none => (.denied, m)
  | some j =>
    (.ok j.id, setJob m jid { j with pause_event := false, status := .running })

/-- `cmd_cancel`: after `_get_job` succeeds, unconditionally
`j.stop_event.set(); j.status = "cancelled"`. -/
def cmdCancel (m : JobMap) (jid : String) (req : Int) (admins : List Int) :
    CtrlReply × JobMap :=
  match getJob m jid req admins with
  | none => (.denied, m)
  | some j =>
    (.ok j.id, setJob m jid { j with stop_event := true, status := .cancelled })

/-- `on_job_callback` with `action == "pause"`: only owners/admins, and only
when the job is currently `running`; otherwise a no-op answer. -/
def cbPauseJob (m : JobMap) (jid : String) (req : Int) (admins : List Int) :
    CtrlReply × JobMap :=
  match lookupJob m jid with
  | none => (.notFound, m)
  | some j =>
    if j.user_id ≠ req ∧ isAdminUid admins req = false then (.notAllowed, m)
    else if j.status = .running then
      (.ok jid, setJob m jid { j with pause_event := true, status := .paused })
    else (.noop, m)

/-- `on_job_callback` with `action == "resume"`: only when currently
`paused`. -/
def cbResumeJob (m : JobMap) (jid : String) (req : Int) (admins : List Int) :
    CtrlReply × JobMap :=
  match lookupJob m jid with
  | none => (.notFound, m)
  | some j =>
    if j.user_id ≠ req ∧ isAdminUid admins req = false then (.notAllowed, m)
    else if j.status = .paused then
      (.ok jid, setJob m jid { j with pause_event := false, status := .running })
    else (.noop, m)

/-- `on_job_callback` with `action == "cancel"`: only when currently
`running` or `paused`. -/
def cbCancelJob (m : JobMap) (jid : String) (req : Int) (admins : List Int) :
    CtrlReply × JobMap :=
  match lookupJob m jid with
  | none => (.notFound, m)
  | some j =>
    if j.user_id ≠ req ∧ isAdminUid admins req = false then (.notAllowed, m)
    else if j.status = .running ∨ j.status = .paused then
      (.ok jid, setJob m jid { j with stop_event := true, status := .cancelled })
    else (.noop, m)

/-! ### Snapshot persistence (`save_jobs` / `load_jobs`) -/

/-- The JSON values that can occur in a `jobs.json` record field. -/
inductive JVal
  | jnull
  | jstr (s : String)
  | jint (n : Int)
deriving DecidableEq

/-- Python `int(v)`: an int stays an int, a string is parsed (raising on
failure, i.e. `none`), `None` raises. -/
def jToInt : JVal → Option Int
  | .jnull => none
  | .jstr s => s.toInt?
  | .jint n => some n

/-- Python `str(v)`. -/
def jToStr : JVal → String
  | .jnull => "None"
  | .jstr s => s
  | .jint n => toString n

/-- One parsed JSON object of the snapshot array: `d.get(key, default)`
yields the stored value when present (`some`) or the default. -/
structure RawJob where
  id : Option JVal
  user_id : Option JVal
  chain : Option JVal
  count : Option JVal
  processed : Option JVal
  status : Option JVal
  created_at : Option JVal
deriving DecidableEq

/-- One element of the iterated snapshot array: either a JSON object or
some non-dict value (string, number, ...) on which `.get` raises
`AttributeError` (caught by the per-record `try`). -/
inductive RawRecord
  | dict (d : RawJob)
  | nondict
deriving DecidableEq

/-- The status restoration rule of `load_jobs`:
`st if st in ("done", "cancelled", "failed") else "failed"`. -/
def recoverStatus (st : String) : Status :=
  if st = statusStr .done then .done
  else if st = statusStr .cancelled then .cancelled
  else if st = statusStr .failed then .failed
  else .failed

/-- The body of `load_jobs`'s per-record `try`: reconstruct a `BulkJob`
from one record.  Any `int()` failure (or a non-dict record) makes the
whole record `none` (`except Exception: continue`).  `fresh` is the uuid
the `BulkJob` constructor would draw, used only when the `id` key is
absent; `now` is `int(time.time())`, used only when `created_at` is
absent. -/
def loadOne (fresh : String) (now : Int) : RawRecord → Option BulkJob
  | .nondict => none
  | .dict d => do
    let uid ← jToInt (d.user_id.getD (.jint 0))
    let chainv := jToStr (d.chain.getD (.jstr ("")))
    let cnt ← jToInt (d.count.getD (.jint 0))
    let idv := jToStr (d.id.getD (.jstr fresh))
    let proc ← jToInt (d.processed.getD (.jint 0))
    let st := jToStr (d.status.getD (.jstr (statusStr .done)))
    let cat ← jToInt (d.created_at.getD (.jint now))
    some { id := idv, user_id := uid, chain := chainv, count := cnt,
           processed := proc, status := recoverStatus st, created_at := cat,
           pause_event := false, stop_event := false }

/-- The loop `for d in arr or []: ... _jobs[j.id] = j` of `load_jobs`.
The index `i` numbers the records so each skipped-id record gets its own
fresh uuid. -/
def loadRecs (fresh : Nat → String) (now : Int) :
    Nat → List RawRecord → JobMap → JobMap
  | _, [], m => m
  | i, r :: rs, m =>
    loadRecs fresh now (i + 1) rs
      (match loadOne (fresh i) now r with
       | none => m
       | some j => upsert m j)

/-- The possible top-level shapes of the `jobs.json` file as `load_jobs`
sees them:
* `absent`      — `JOBS_JSON.exists()` is false;
* `unparsable`  — `json.load` raises (caught, early return);
* `falsy`       — the parsed value is falsy (`null`, `false`, `0`, `""`,
  `[]`, `{}`), so `arr or []` iterates the empty list;
* `nonIterable` — the parsed value is truthy but not iterable (e.g. the
  file contains `5`): `for d in arr or []` raises `TypeError` *outside*
  the `try`, so `load_jobs` itself raises;
* `arr l`       — an iterable: a JSON array of records (a truthy string or
  object also lands here, iterating its characters/keys, which are all
  non-dict records). -/
inductive SnapTop
  | absent
  | unparsable
  | falsy
  | nonIterable
  | arr (l : List RawRecord)

/-- `load_jobs()` over a snapshot of shape `top`, starting registry `m`.
`Except.error ()` is an uncaught exception escaping `load_jobs`. -/
def loadJobs (fresh : Nat → String) (now : Int) (top : SnapTop)
    (m : JobMap) : Except Unit JobMap :=
  match top with
  | .absent => .ok m
  | .unparsable => .ok m
  | .falsy => .ok m
  | .nonIterable => .error ()
  | .arr l => .ok (loadRecs fresh now 0 l m)

/-- `_serialize_job(j)`: the seven persisted fields, all present. -/
def serializeJob (j : BulkJob) : RawRecord :=
  .dict
    { id := some (.jstr j.id), user_id := some (.jint j.user_id),
      chain := some (.jstr j.chain), count := some (.jint j.count),
      processed := some (.jint j.processed),
      status := some (.jstr (statusStr j.status)),
      created_at := some (.jint j.created_at) }

/-- What reloading the serialized form of `j` produces: the seven persisted
fields as stored except that `running`/`paused` become `failed`, with both
in-memory signals cleared. -/
def restoreJob (j : BulkJob) : BulkJob :=
  { j with status := recoverStatus (statusStr j.status),
           pause_event := false, stop_event := false }

/-! ### Submission (`cmd_bulkzip` validation) -/

/-- The outcomes of `/bulkzip CHAIN COUNT` before any generation starts. -/
inductive SubmitResult
  | unsupportedChain       -- "Unsupported chain. Use one of: ..."
  | countOutOfRange        -- "COUNT must be between 1 and MAX_COUNT."
  | quotaExceeded          -- "Non-admin max is CAP. Ask admin or reduce COUNT."
  | created (j : BulkJob)
deriving DecidableEq

/-- The requester's effective cap:
`MAX_COUNT if is_admin(uid) else min(MAX_COUNT_NONADMIN, MAX_COUNT)`. -/
def requesterCap (admins : List Int) (uid maxCount maxNonAdmin : Int) : Int :=
  if isAdminUid admins uid then maxCount else min maxNonAdmin maxCount

/-- The validation and job-creation path of `cmd_bulkzip` (count already
parsed as an integer; a parse failure returns before any of this).  On
success the job is registered in `_jobs` and its id returned; in every
failure case the registry is untouched and no job exists. -/
def submitBulk (fresh : String) (now : Int) (uid : Int) (admins : List Int)
    (chain : String) (count : Int) (maxCount maxNonAdmin : Int)
    (m : JobMap) : SubmitResult × JobMap :=
  if supportedChains.contains chain = false then (.unsupportedChain, m)
  else if count ≤ 0 ∨ maxCount < count then (.countOutOfRange, m)
  else if requesterCap admins uid maxCount maxNonAdmin < count then
    (.quotaExceeded, m)
  else
    let j := mkBulkJob fresh now uid chain count
    (.created j, upsert m j)

/-! ### The worker machine (`_bulkzip_worker` + `run_and_report`)

A small-step operational semantics for one job's worker thread,
interleaved with the controller operations.  Each step is one observable
unit of the Python code: one signal check, one pause-wait poll, one
`generate_wallet` call + row write, one chunk boundary, the packaging
pass, the final status assignment, or the `except` branch of
`run_and_report`. -/

/-- Program points of `_bulkzip_worker` (and of `run_and_report`'s
exception handler, `crashed`). -/
inductive PC
  | outerCheck   -- `while idx < count:` test + the `if stop_event` break
  | outerWait    -- the outer `while pause_event and not stop_event` poll
  | chunkStart   -- `chunk_size = min(CSV_CHUNK, count - idx)`, open CSV
  | innerCheck   -- `for j in range(chunk_size)` test + `if stop_event` break
  | innerWait    -- the inner `while pause_event and not stop_event` poll
  | genRow       -- `generate_wallet`, row write, `processed += 1`
  | chunkEnd     -- `csv_paths.append`, `idx += chunk_size`
  | packageZips  -- group CSVs into ZIP archives (or early return if none)
  | finalize     -- `if status != "cancelled": status = "done"`, record zips
  | crashed      -- exception escaped the worker; `run_and_report` catches
  | finished
deriving DecidableEq

/-- Configuration read from the environment:
`CSV_CHUNK = BULKZIP_CSV_CHUNK` (default 10000) and
`ZIP_CSVS = BULKZIP_ZIP_CSVS` (default 10). -/
structure Cfg where
  csvChunk : Nat
  zipCsvs : Nat
deriving DecidableEq

def defaultCfg : Cfg := { csvChunk := 10000, zipCsvs := 10 }

/-- Number of ZIP files built from `csvs` CSV files:
`range(0, csvs, zipCsvs)` groups, i.e. the ceiling of `csvs / zipCsvs`. -/
def numZips (cfg : Cfg) (csvs : Nat) : Nat :=
  (csvs + cfg.zipCsvs - 1) / cfg.zipCsvs

/-- The mutable state visible to worker and controller: the job's shared
fields (`processed`, `status`, the two events) plus the worker's locals
(`idx`, the row index `jrow` inside the current chunk, `chunk_size`, the
number of CSV files appended to `csv_paths`, the ZIP files built, and
`job.zip_paths` as recorded at the end — `none` while never assigned). -/
structure WState where
  processed : Nat
  status : Status
  pause_event : Bool
  stop_event : Bool
  idx : Nat
  jrow : Nat
  chunk : Nat
  csvs : Nat
  zipsBuilt : Nat
  zipRec : Option Nat
  pc : PC
deriving DecidableEq

/-- Worker state right after `cmd_bulkzip` created the job: fresh
`BulkJob` fields, worker at the top of its loop. -/
def initW : WState :=
  { processed := 0, status := .running, pause_event := false,
    stop_event := false, idx := 0, jrow := 0, chunk := 0, csvs := 0,
    zipsBuilt := 0, zipRec := none, pc := .outerCheck }

/-- One step of the worker thread.  `faults k` tells whether the
`generate_wallet` call made when `processed = k` raises. -/
def workerStep (faults : Nat → Bool) (cfg : Cfg) (count : Nat)
    (s : WState) : WState :=
  match s.pc with
  | .outerCheck =>
    if s.idx < count then
      if s.stop_event then { s with status := .cancelled, pc := .packageZips }
      else { s with pc := .outerWait }
    else { s with pc := .packageZips }
  | .outerWait =>
    if s.pause_event ∧ s.stop_event = false then { s with status := .paused }
    else if s.status = .paused ∧ s.pause_event = false then
      { s with status := .running, pc := .chunkStart }
    else { s with pc := .chunkStart }
  | .chunkStart =>
    { s with chunk := min cfg.csvChunk (count - s.idx), jrow := 0,
             pc := .innerCheck }
  | .innerCheck =>
    if s.jrow < s.chunk then
      if s.stop_event then { s with status := .cancelled, pc := .chunkEnd }
      else { s with pc := .innerWait }
    else { s with pc := .chunkEnd }
  | .innerWait =>
    if s.pause_event ∧ s.stop_event = false then s
    else { s with pc := .genRow }
  | .genRow =>
    if faults s.processed then { s with pc := .crashed }
    else { s with processed := s.processed + 1, jrow := s.jrow + 1,
                  pc := .innerCheck }
  | .chunkEnd =>
    { s with csvs := s.csvs + 1, idx := s.idx + s.chunk, pc := .outerCheck }
  | .packageZips =>
    if s.csvs = 0 then { s with pc := .finished }
    else { s with zipsBuilt := numZips cfg s.csvs, pc := .finalize }
  | .finalize =>
    { s with status := if s.status = .cancelled then s.status else .done,
             zipRec := some s.zipsBuilt, pc := .finished }
  | .crashed => { s with status := .failed, pc := .finished }
  | .finished => s

/-- `cmd_pause`'s effect on the job's shared fields (ownership already
checked). -/
def ctrlPause (s : WState) : WState :=
  { s with pause_event := true, status := .paused }

/-- `cmd_resume`'s effect. -/
def ctrlResume (s : WState) : WState :=
  { s with pause_event := false, status := .running }

/-- `cmd_cancel`'s effect. -/
def ctrlCancel (s : WState) : WState :=
  { s with stop_event := true, status := .cancelled }

/-- `on_job_callback` pause: guarded by `status == "running"`. -/
def cbPause (s : WState) : WState :=
  if s.status = .running then ctrlPause s else s

/-- `on_job_callback` resume: guarded by `status == "paused"`. -/
def cbResume (s : WState) : WState :=
  if s.status = .paused then ctrlResume s else s

/-- `on_job_callback` cancel: guarded by `status in ("running", "paused")`. -/
def cbCancel (s : WState) : WState :=
  if s.status = .running ∨ s.status = .paused then ctrlCancel s else s

/-- An interleaving atom: one worker step or one controller operation. -/
inductive Act
  | w
  | pauseCmd
  | resumeCmd
  | cancelCmd
  | pauseCb
  | resumeCb
  | cancelCb
deriving DecidableEq

def applyAct (faults : Nat → Bool) (cfg : Cfg) (count : Nat)
    (s : WState) : Act → WState
  | .w => workerStep faults cfg count s
  | .pauseCmd => ctrlPause s
  | .resumeCmd => ctrlResume s
  | .cancelCmd => ctrlCancel s
  | .pauseCb => cbPause s
  | .resumeCb => cbResume s
  | .cancelCb => cbCancel s

/-- Run a schedule of interleaved worker/controller steps. -/
def runActs (faults : Nat → Bool) (cfg : Cfg) (count : Nat)
    (s : WState) (acts : List Act) : WState :=
  acts.foldl (applyAct faults cfg count) s

/-- The controller operations reachable through the inline callbacks
(plus worker steps): the status-guarded control path. -/
def GuardedAct (a : Act) : Prop :=
  a = .w ∨ a = .pauseCb ∨ a = .resumeCb ∨ a = .cancelCb

instance : DecidablePred GuardedAct := fun a => by
  unfold GuardedAct; infer_instance

/-- The worker, left alone, can reach `s'` from `s`. -/
def WReach (faults : Nat → Bool) (cfg : Cfg) (count : Nat)
    (s s' : WState) : Prop :=
  ∃ n : Nat, (workerStep faults cfg count)^[n] s = s'

/-- A fault oracle that never fires (normal operation). -/
def noFaults : Nat → Bool := fun _ => false

/-- A fault oracle that always fires. -/
def allFaults : Nat → Bool := fun _ => true

/-! ### Helper lemmas: registry map -/

lemma lookupJob_append_of_none {m₁ : JobMap} (m₂ : JobMap) {k : String}
    (h : lookupJob m₁ k = none) :
    lookupJob (m₁ ++ m₂) k = lookupJob m₂ k := by
  induction m₁ with
  | nil => rfl
  | cons p rest ih =>
    obtain ⟨k', j⟩ := p
    by_cases hk : k' = k
    · simp [lookupJob, hk] at h
    · simp only [lookupJob, if_neg hk] at h
      simpa [lookupJob, hk] using ih h

lemma upsert_of_lookup_none {m : JobMap} {j : BulkJob}
    (h : lookupJob m j.id = none) : upsert m j = m ++ [(j.id, j)] := by
  have hany : m.any (fun p => p.1 = j.id) = false := by
    induction m with
    | nil => rfl
    | cons p rest ih =>
      obtain ⟨k', x⟩ := p
      by_cases hk : k' = j.id
      · simp [lookupJob, hk] at h
      · simp only [lookupJob, if_neg hk] at h
        simp [List.any, hk, ih h]
  simp [upsert, hany]

lemma lookupJob_setJob {m : JobMap} {k : String} {j : BulkJob}
    (x : BulkJob) (h : lookupJob m k = some j) :
    lookupJob (setJob m k x) k = some x := by
  induction m with
  | nil => simp [lookupJob] at h
  | cons p rest ih =>
    obtain ⟨k', y⟩ := p
    by_cases hk : k' = k
    · simp [setJob, lookupJob, hk]
    · simp only [lookupJob, if_neg hk] at h
      simpa [setJob, lookupJob, hk] using ih h

lemma setJob_self {m : JobMap} {k : String} {j : BulkJob}
    (h : lookupJob m k = some j) : setJob m k j = m := by
  induction m with
  | nil => rfl
  | cons p rest ih =>
    obtain ⟨k', y⟩ := p
    by_cases hk : k' = k
    · subst hk
      simp only [lookupJob, if_true, eq_self_iff_true, Option.some.injEq] at h
      simp [setJob, h]
    · simp only [lookupJob, if_neg hk] at h
      simp [setJob, hk, ih h]

/-- The per-job view of the registry that `processed` claims range over. -/
def procView (m : JobMap) : List (String × Int) :=
  m.map (fun p => (p.1, p.2.processed))

lemma procView_setJob {m : JobMap} {k : String} {j x : BulkJob}
    (h : lookupJob m k = some j) (hx : x.processed = j.processed) :
    procView (setJob m k x) = procView m := by
  induction m with
  | nil => rfl
  | cons p rest ih =>
    obtain ⟨k', y⟩ := p
    by_cases hk : k' = k
    · subst hk
      simp only [lookupJob, if_true, eq_self_iff_true, Option.some.injEq] at h
      subst h
      simp [setJob, procView, hx]
    · simp only [lookupJob, if_neg hk] at h
      simpa [setJob, procView, hk] using ih h

lemma mem_upsert {m : JobMap} {j : BulkJob} {p : String × BulkJob}
    (h : p ∈ upsert m j) : p ∈ m ∨ p.2 = j := by
  unfold upsert at h
  split at h
  · obtain ⟨q, hq, hpq⟩ := List.mem_map.mp h
    by_cases hk : q.1 = j.id
    · right; rw [← hpq]; simp [hk]
    · left; rw [← hpq]; simpa [hk] using hq
  · rcases List.mem_append.mp h with h' | h'
    · exact Or.inl h'
    · right; simp at h'; simp [h']

/-! ### Helper lemmas: snapshot load -/

lemma recoverStatus_of_terminal {st : Status} (h : terminalStatus st) :
    recoverStatus (statusStr st) = st := by
  rcases h with h | h | h <;> subst h <;> decide

lemma recoverStatus_of_active {st : Status}
    (h : st = .running ∨ st = .paused) :
    recoverStatus (statusStr st) = .failed := by
  rcases h with h | h <;> subst h <;> decide

lemma recoverStatus_terminal (s : String) :
    terminalStatus (recoverStatus s) := by
  unfold recoverStatus terminalStatus
  split_ifs <;> simp

lemma loadOne_serializeJob (fresh : String) (now : Int) (j : BulkJob) :
    loadOne fresh now (serializeJob j) = some (restoreJob j) := by
  obtain ⟨i, u, c, n, p, st, ca, pe, se⟩ := j
  rfl

lemma loadOne_status_terminal {fresh : String} {now : Int} {r : RawRecord}
    {j : BulkJob} (h : loadOne fresh now r = some j) :
    terminalStatus j.status := by
  cases r with
  | nondict => simp [loadOne] at h
  | dict d =>
    simp only [loadOne, Option.bind_eq_bind, Option.bind_eq_some] at h
    obtain ⟨uid, _, cnt, _, proc, _, cat, _, hj⟩ := h
    simp only [Option.some.injEq] at hj
    rw [← hj]
    exact recoverStatus_terminal _

lemma loadRecs_serialized (fresh : Nat → String) (now : Int) :
    ∀ (jobs : List BulkJob) (i : Nat) (m : JobMap),
      (∀ j ∈ jobs, lookupJob m j.id = none) →
      (jobs.map BulkJob.id).Nodup →
      loadRecs fresh now i (jobs.map serializeJob) m
        = m ++ jobs.map (fun j => (j.id, restoreJob j)) := by
  intro jobs
  induction jobs with
  | nil => intro i m _ _; simp [loadRecs]
  | cons j rest ih =>
    intro i m hnone hnd
    have h1 : lookupJob m j.id = none := hnone j (by simp)
    have hre : (restoreJob j).id = j.id := rfl
    have hup : upsert m (restoreJob j) = m ++ [(j.id, restoreJob j)] := by
      rw [upsert_of_lookup_none (by rw [hre]; exact h1), hre]
    simp only [List.map_cons, loadRecs, loadOne_serializeJob, hup]
    rw [ih (i + 1) (m ++ [(j.id, restoreJob j)]) ?_ ?_]
    · simp
    · intro j' hj'
      have hj'm : lookupJob m j'.id = none := hnone j' (by simp [hj'])
      rw [lookupJob_append_of_none _ hj'm]
      have hne : j.id ≠ j'.id := by
        simp only [List.map_cons, List.nodup_cons] at hnd
        intro hcontra
        exact hnd.1 (hcontra ▸ List.mem_map_of_mem BulkJob.id hj')
      simp [lookupJob, hne]
    · simp only [List.map_cons, List.nodup_cons] at hnd
      exact hnd.2

/-- C7.  For every persisted snapshot (the serialized form of any list of
job records with distinct ids), reloading it restores every record with
its stored `id`, `owner`, `chain`, `count`, `processed` and creation time,
maps stored `running`/`paused` statuses to `failed`, keeps stored
`done`/`cancelled`/`failed` statuses, and never yields a reloaded record
with status `running`, `paused`, or a `done` it did not have before. -/
theorem c7_snapshot_reload (fresh : Nat → String) (now : Int)
    (jobs : List BulkJob) (hnd : (jobs.map BulkJob.id).Nodup) :
    loadJobs fresh now (.arr (jobs.map serializeJob)) []
      = .ok (jobs.map (fun j => (j.id, restoreJob j)))
    ∧ ∀ j ∈ jobs,
        (restoreJob j).status ≠ .running
        ∧ (restoreJob j).status ≠ .paused
        ∧ ((j.status = .running ∨ j.status = .paused) →
             (restoreJob j).status = .failed)
        ∧ (terminalStatus j.status → (restoreJob j).status = j.status)
        ∧ ((restoreJob j).status = .done → j.status = .done)
        ∧ (restoreJob j).id = j.id
        ∧ (restoreJob j).user_id = j.user_id
        ∧ (restoreJob j).chain = j.chain
        ∧ (restoreJob j).count = j.count
        ∧ (restoreJob j).processed = j.processed
        ∧ (restoreJob j).created_at = j.created_at := by
  constructor
  · simp only [loadJobs, Except.ok.injEq]
    exact loadRecs_serialized fresh now jobs 0 [] (by simp [lookupJob]) hnd
  · intro j _
    have hres : (restoreJob j).status = recoverStatus (statusStr j.status) := rfl
    refine ⟨?_, ?_, ?_, ?_, ?_, rfl, rfl, rfl, rfl, rfl, rfl⟩
    · rw [hres]
      have := recoverStatus_terminal (statusStr j.status)
      rcases this with h | h | h <;> simp [h]
    · rw [hres]
      have := recoverStatus_terminal (statusStr j.status)
      rcases this with h | h | h <;> simp [h]
    · intro h; rw [hres, recoverStatus_of_active h]
    · intro h; rw [hres, recoverStatus_of_terminal h]
    · intro h
      rw [hres] at h
      cases hst : j.status <;> rw [hst] at h <;> first
        | rfl
        | (exfalso; revert h; decide)

/-- Witness for C7 at a two-record snapshot: one `running` job and one
`done` job, distinct ids. -/
theorem c7_witness :
    (([mkBulkJob ("aaaa0001") 5 1 ("ETH") 3,
       { mkBulkJob ("aaaa0002") 6 2 ("BTC") 4 with
           status := Status.done }].map BulkJob.id).Nodup)
    ∧ (loadJobs (fun _ => ("ffff0000")) 0
        (.arr ([mkBulkJob ("aaaa0001") 5 1 ("ETH") 3,
                { mkBulkJob ("aaaa0002") 6 2 ("BTC") 4 with
                    status := Status.done }].map serializeJob)) []
        = .ok ([mkBulkJob ("aaaa0001") 5 1 ("ETH") 3,
                { mkBulkJob ("aaaa0002") 6 2 ("BTC") 4 with
                    status := Status.done }].map
                 (fun j => (j.id, restoreJob j)))
       ∧ ∀ j ∈ [mkBulkJob ("aaaa0001") 5 1 ("ETH") 3,
                { mkBulkJob ("aaaa0002") 6 2 ("BTC") 4 with
                    status := Status.done }],
           (restoreJob j).status ≠ .running
           ∧ (restoreJob j).status ≠ .paused
           ∧ ((j.status = .running ∨ j.status = .paused) →
                (restoreJob j).status = .failed)
           ∧ (terminalStatus j.status → (restoreJob j).status = j.status)
           ∧ ((restoreJob j).status = .done → j.status = .done)
           ∧ (restoreJob j).id = j.id
           ∧ (restoreJob j).user_id = j.user_id
           ∧ (restoreJob j).chain = j.chain
           ∧ (restoreJob j).count = j.count
           ∧ (restoreJob j).processed = j.processed
           ∧ (restoreJob j).created_at = j.created_at) :=
  ⟨by decide, c7_snapshot_reload (fun _ => ("ffff0000")) 0 _ (by decide)⟩

/-- C8.  `cmd_bulkzip` validates synchronously: an unsupported chain fails
with `UnsupportedChain`; a non-positive count, or one exceeding the
requester's cap (the lower non-admin cap for non-admins, the hard global
cap for admins), fails with one of the two count/quota errors — exactly
`countOutOfRange` when the count is outside `1..MAX_COUNT`, and exactly
`quotaExceeded` when it is in the global range but over the requester's
cap (spec scenario E); in every failure case the registry is unchanged and
no job is created; and a successful submission implies the chain was
supported and `0 < count ≤ cap`. -/
theorem c8_submit_validates (fresh : String) (now : Int) (uid : Int)
    (admins : List Int) (chain : String) (count maxC maxNA : Int)
    (m : JobMap) :
    (supportedChains.contains chain = false →
       submitBulk fresh now uid admins chain count maxC maxNA m
         = (.unsupportedChain, m))
    ∧ ((count ≤ 0 ∨ requesterCap admins uid maxC maxNA < count) →
         (submitBulk fresh now uid admins chain count maxC maxNA m).2 = m
         ∧ ∀ j : BulkJob,
             (submitBulk fresh now uid admins chain count maxC maxNA m).1
               ≠ .created j)
    ∧ (supportedChains.contains chain = true →
         (count ≤ 0 ∨ requesterCap admins uid maxC maxNA < count) →
         (submitBulk fresh now uid admins chain count maxC maxNA m).1
             = .countOutOfRange
         ∨ (submitBulk fresh now uid admins chain count maxC maxNA m).1
             = .quotaExceeded)
    ∧ (supportedChains.contains chain = true → 0 < count → count ≤ maxC →
         requesterCap admins uid maxC maxNA < count →
         submitBulk fresh now uid admins chain count maxC maxNA m
           = (.quotaExceeded, m))
    ∧ (∀ (j : BulkJob) (m' : JobMap),
         submitBulk fresh now uid admins chain count maxC maxNA m
           = (.created j, m') →
         supportedChains.contains chain = true ∧ 0 < count
         ∧ count ≤ requesterCap admins uid maxC maxNA
         ∧ j = mkBulkJob fresh now uid chain count ∧ m' = upsert m j) := by
  have hcap : requesterCap admins uid maxC maxNA ≤ maxC := by
    unfold requesterCap
    split_ifs <;> omega
  refine ⟨fun h => by unfold submitBulk; rw [h]; simp, fun h => ?_,
          fun hc h => ?_, fun hc h0 hmx hq => ?_, fun j m' h => ?_⟩
  · unfold submitBulk
    split_ifs with h1 h2 h3 <;> simp_all
  · unfold submitBulk
    split_ifs with h1 h2 h3
    · rw [h1] at hc; exact absurd hc (by decide)
    · exact Or.inl rfl
    · exact Or.inr rfl
    · exact absurd h (by push_neg; omega)
  · unfold submitBulk
    split_ifs with h1 h2
    · rw [h1] at hc; exact absurd hc (by decide)
    · exact absurd h2 (by omega)
    · rfl
  · unfold submitBulk at h
    split_ifs at h with h1 h2 h3
    · exact absurd (congrArg Prod.fst h) (by simp)
    · exact absurd (congrArg Prod.fst h) (by simp)
    · exact absurd (congrArg Prod.fst h) (by simp)
    · have hj : j = mkBulkJob fresh now uid chain count := by
        have := congrArg Prod.fst h
        simp only at this
        exact (SubmitResult.created.inj this.symm)
      have hm : m' = upsert m (mkBulkJob fresh now uid chain count) := by
        have := congrArg Prod.snd h
        simp only at this
        exact this.symm
      refine ⟨by simpa using h1, by omega, by omega, hj, by rw [hm, hj]⟩

/-- Witness for C8 at spec scenario E: a non-admin submission of 200000
with the default caps (hard cap 1000000, non-admin cap 100000) is rejected
with exactly the `quotaExceeded` reply, the registry untouched and no job
created. -/
theorem c8_witness :
    (supportedChains.contains ("ETH") = true ∧ (0 : Int) < 200000
     ∧ (200000 : Int) ≤ 1000000
     ∧ requesterCap [] 1 1000000 100000 < 200000)
    ∧ submitBulk ("aaaa0001") 0 1 [] ("ETH") 200000 1000000 100000 []
        = (.quotaExceeded, []) :=
  ⟨⟨by decide, by decide, by decide, by decide⟩,
   (c8_submit_validates ("aaaa0001") 0 1 [] ("ETH") 200000 1000000 100000
      []).2.2.2.1 (by decide) (by decide) (by decide) (by decide)⟩

/-- C9.  A requester who is neither the owner nor an admin gets the
denied/not-allowed reply from every mutating control operation (the text
commands and the inline callbacks), and the registry — hence every field
of the targeted job — is left unchanged. -/
theorem c9_forbidden_unchanged (m : JobMap) (jid : String) (req : Int)
    (admins : List Int) (j : BulkJob) (hlk : lookupJob m jid = some j)
    (hown : j.user_id ≠ req) (hadm : isAdminUid admins req = false) :
    cmdPause m jid req admins = (.denied, m)
    ∧ cmdResume m jid req admins = (.denied, m)
    ∧ cmdCancel m jid req admins = (.denied, m)
    ∧ cbPauseJob m jid req admins = (.notAllowed, m)
    ∧ cbResumeJob m jid req admins = (.notAllowed, m)
    ∧ cbCancelJob m jid req admins = (.notAllowed, m)
    ∧ lookupJob (cmdPause m jid req admins).2 jid = some j := by
  have hget : getJob m jid req admins = none := by
    simp [getJob, hlk, hown, hadm]
  refine ⟨?_, ?_, ?_, ?_, ?_, ?_, ?_⟩ <;>
    simp [cmdPause, cmdResume, cmdCancel, cbPauseJob, cbResumeJob,
          cbCancelJob, hget, hlk, hown, hadm]

/-- Witness for C9: user 2 (not an admin) tries to pause user 1's job. -/
theorem c9_witness :
    (lookupJob [(("aaaa0001" : String), mkBulkJob ("aaaa0001") 5 1 ("ETH") 3)]
        ("aaaa0001") = some (mkBulkJob ("aaaa0001") 5 1 ("ETH") 3)
     ∧ (mkBulkJob ("aaaa0001") 5 1 ("ETH") 3).user_id ≠ 2
     ∧ isAdminUid [] 2 = false)
    ∧ cmdPause [(("aaaa0001" : String), mkBulkJob ("aaaa0001") 5 1 ("ETH") 3)]
        ("aaaa0001") 2 []
      = (.denied, [(("aaaa0001" : String), mkBulkJob ("aaaa0001") 5 1 ("ETH") 3)]) :=
  ⟨⟨by decide, by decide, by decide⟩,
   (c9_forbidden_unchanged
      [(("aaaa0001" : String), mkBulkJob ("aaaa0001") 5 1 ("ETH") 3)]
      ("aaaa0001") 2 [] (mkBulkJob ("aaaa0001") 5 1 ("ETH") 3)
      (by decide) (by decide) (by decide)).1⟩

lemma loadRecs_mem (fresh : Nat → String) (now : Int) :
    ∀ (l : List RawRecord) (i : Nat) (m : JobMap) (p : String × BulkJob),
      p ∈ loadRecs fresh now i l m → p ∈ m ∨ terminalStatus p.2.status := by
  intro l
  induction l with
  | nil => intro i m p hp; exact Or.inl hp
  | cons r rs ih =>
    intro i m p hp
    simp only [loadRecs] at hp
    rcases hld : loadOne (fresh i) now r with _ | j
    · rw [hld] at hp
      exact ih (i + 1) m p hp
    · rw [hld] at hp
      rcases ih (i + 1) (upsert m j) p hp with h | h
      · rcases mem_upsert h with h' | h'
        · exact Or.inl h'
        · exact Or.inr (h' ▸ loadOne_status_terminal hld)
      · exact Or.inr h

/-- C10 counterexample.  Snapshot loading is **not** total: a snapshot
file whose JSON parses to a truthy non-iterable value (e.g. a file
containing just `5`) makes `load_jobs` raise `TypeError` at
`for d in arr or []`, which sits outside the `try` that guards parsing —
modelled as `Except.error ()`. -/
theorem c10_counterexample :
    loadJobs (fun _ => ("ffff0000")) 0 SnapTop.nonIterable []
      = Except.error () := rfl

/-- C10 as amended.  A missing, unparsable or falsy snapshot file leaves
the registry unchanged; a record that is not a dict, or whose integer
fields fail to parse, is skipped while the remaining records are still
loaded; every record that is loaded carries a terminal status.  The one
exception to totality is a truthy non-iterable top-level JSON value, on
which `load_jobs` raises. -/
theorem c10_amended (fresh : Nat → String) (now : Int) (m : JobMap)
    (i : Nat) (d : RawJob) (l : List RawRecord) (r : RawRecord)
    (jb : BulkJob) (hbad : loadOne (fresh i) now (.dict d) = none)
    (hload : loadOne (fresh i) now r = some jb) :
    loadJobs fresh now .absent m = .ok m
    ∧ loadJobs fresh now .unparsable m = .ok m
    ∧ loadJobs fresh now .falsy m = .ok m
    ∧ loadJobs fresh now .nonIterable m = .error ()
    ∧ loadRecs fresh now i (.nondict :: l) m = loadRecs fresh now (i + 1) l m
    ∧ loadRecs fresh now i (.dict d :: l) m = loadRecs fresh now (i + 1) l m
    ∧ terminalStatus jb.status
    ∧ ∀ p ∈ loadRecs fresh now i l m, p ∈ m ∨ terminalStatus p.2.status := by
  refine ⟨rfl, rfl, rfl, rfl, rfl, ?_, loadOne_status_terminal hload,
          fun p hp => loadRecs_mem fresh now l i m p hp⟩
  simp [loadRecs, hbad]

/-- Witness for C10-as-amended: a record whose `count` is JSON `null`
(so `int(None)` raises) is skipped; a serialized `running` job loads (as
`failed`, a terminal status). -/
theorem c10_witness :
    (loadOne ("ffff0000") 0
        (.dict { id := none, user_id := none, chain := none,
                 count := some .jnull, processed := none,
                 status := none, created_at := none }) = none
     ∧ loadOne ("ffff0000") 0 (serializeJob (mkBulkJob ("aaaa0001") 5 1 ("ETH") 3))
         = some (restoreJob (mkBulkJob ("aaaa0001") 5 1 ("ETH") 3)))
    ∧ (loadJobs (fun _ => ("ffff0000")) 0 .absent [] = .ok []
       ∧ loadJobs (fun _ => ("ffff0000")) 0 .unparsable [] = .ok []
       ∧ loadJobs (fun _ => ("ffff0000")) 0 .falsy [] = .ok []
       ∧ loadJobs (fun _ => ("ffff0000")) 0 .nonIterable [] = .error ()
       ∧ loadRecs (fun _ => ("ffff0000")) 0 0 [.nondict] []
           = loadRecs (fun _ => ("ffff0000")) 0 1 [] []
       ∧ loadRecs (fun _ => ("ffff0000")) 0 0
           [.dict { id := none, user_id := none, chain := none,
                    count := some .jnull, processed := none,
                    status := none, created_at := none }] []
           = loadRecs (fun _ => ("ffff0000")) 0 1 [] []
       ∧ terminalStatus (restoreJob (mkBulkJob ("aaaa0001") 5 1 ("ETH") 3)).status
       ∧ ∀ p ∈ loadRecs (fun _ => ("ffff0000")) 0 0 [] ([] : JobMap),
           p ∈ ([] : JobMap) ∨ terminalStatus p.2.status) :=
  ⟨⟨by decide, by decide⟩,
   c10_amended (fun _ => ("ffff0000")) 0 [] 0
     { id := none, user_id := none, chain := none,
       count := some .jnull, processed := none,
       status := none, created_at := none }
     [] (serializeJob (mkBulkJob ("aaaa0001") 5 1 ("ETH") 3))
     (restoreJob (mkBulkJob ("aaaa0001") 5 1 ("ETH") 3))
     (by decide) (by decide)⟩

/-! ### C5: terminal states and the two control surfaces -/

/-- C5 counterexample.  The `/pause` text command enforces only ownership:
invoked by the owner on a job whose status is already terminal (`done`),
it sets the pause signal and rewrites the status to `paused` — a control
operation *does* leave a terminal state. -/
theorem c5_counterexample :
    ({ mkBulkJob ("aa11bb22") 0 7 ("ETH") 5 with
         processed := 5, status := Status.done }).status = .done
    ∧ (cmdPause
         [(("aa11bb22" : String),
           { mkBulkJob ("aa11bb22") 0 7 ("ETH") 5 with
               processed := 5, status := Status.done })]
         ("aa11bb22") 7 []).1 = .ok ("aa11bb22")
    ∧ lookupJob
        (cmdPause
           [(("aa11bb22" : String),
             { mkBulkJob ("aa11bb22") 0 7 ("ETH") 5 with
                 processed := 5, status := Status.done })]
           ("aa11bb22") 7 []).2 ("aa11bb22")
      = some { mkBulkJob ("aa11bb22") 0 7 ("ETH") 5 with
                 processed := 5, status := Status.paused,
                 pause_event := true } := by decide

/-- C5 as amended.  The inline callback controls never leave a terminal
state (each replies no-op and changes nothing on a terminal job), `pause`
on an already-paused job and repeated `cancel` are idempotent; but the
text commands `/pause`, `/resume`, `/cancel` check only ownership and
apply unconditionally, so they can move a terminal job (see the
counterexample). -/
theorem c5_amended (m : JobMap) (jid : String) (req : Int)
    (admins : List Int) (j : BulkJob) (hlk : lookupJob m jid = some j) :
    (terminalStatus j.status →
       (cbPauseJob m jid req admins).2 = m
       ∧ (cbResumeJob m jid req admins).2 = m
       ∧ (cbCancelJob m jid req admins).2 = m)
    ∧ (j.status = .paused ∧ j.pause_event = true →
         (cmdPause m jid req admins).2 = m)
    ∧ (cmdCancel (cmdCancel m jid req admins).2 jid req admins).2
        = (cmdCancel m jid req admins).2 := by
  refine ⟨fun hterm => ?_, fun hpaused => ?_, ?_⟩
  · have h1 : j.status ≠ .running := by
      rcases hterm with h | h | h <;> rw [h] <;> decide
    have h2 : j.status ≠ .paused := by
      rcases hterm with h | h | h <;> rw [h] <;> decide
    refine ⟨?_, ?_, ?_⟩
    · unfold cbPauseJob
      rw [hlk]
      dsimp only
      rw [if_neg h1]
      split_ifs <;> rfl
    · unfold cbResumeJob
      rw [hlk]
      dsimp only
      rw [if_neg h2]
      split_ifs <;> rfl
    · unfold cbCancelJob
      rw [hlk]
      dsimp only
      have hcond : ¬(j.status = Status.running ∨ j.status = Status.paused) := by
        rintro (h | h)
        exacts [h1 h, h2 h]
      rw [if_neg hcond]
      split_ifs <;> rfl
  · have hj : { j with pause_event := true, status := Status.paused } = j := by
      obtain ⟨i, u, c, n, p, st, ca, pe, se⟩ := j
      simp only at hpaused
      simp [hpaused.1, hpaused.2]
    by_cases hperm : j.user_id ≠ req ∧ isAdminUid admins req = false
    · have h1 : cmdPause m jid req admins = (.denied, m) := by
        unfold cmdPause getJob
        rw [hlk]
        dsimp only
        rw [if_pos hperm]
      rw [h1]
    · have h1 : cmdPause m jid req admins
          = (.ok j.id,
             setJob m jid { j with pause_event := true, status := .paused }) := by
        unfold cmdPause getJob
        rw [hlk]
        dsimp only
        rw [if_neg hperm]
      rw [h1]
      simp only [hj]
      exact setJob_self hlk
  · by_cases hperm : j.user_id ≠ req ∧ isAdminUid admins req = false
    · have h1 : cmdCancel m jid req admins = (.denied, m) := by
        unfold cmdCancel getJob
        rw [hlk]
        dsimp only
        rw [if_pos hperm]
      rw [h1]
      dsimp only
      rw [h1]
    · have h1 : cmdCancel m jid req admins
          = (.ok j.id,
             setJob m jid { j with stop_event := true, status := .cancelled }) := by
        unfold cmdCancel getJob
        rw [hlk]
        dsimp only
        rw [if_neg hperm]
      have hlk' : lookupJob
          (setJob m jid { j with stop_event := true, status := .cancelled })
          jid = some { j with stop_event := true, status := .cancelled } :=
        lookupJob_setJob _ hlk
      have h2 : cmdCancel
          (setJob m jid { j with stop_event := true, status := .cancelled })
          jid req admins
          = (.ok j.id,
             setJob m jid { j with stop_event := true, status := .cancelled }) := by
        unfold cmdCancel getJob
        rw [hlk']
        dsimp only
        rw [if_neg hperm]
        simp only [Prod.mk.injEq]
        exact ⟨trivial, setJob_self hlk'⟩
      rw [h1]
      dsimp only
      rw [h2]

/-- Witness for C5-as-amended at a concrete registry holding one `done`
job. -/
theorem c5_witness :
    (lookupJob
       [(("aa11bb22" : String),
         { mkBulkJob ("aa11bb22") 0 7 ("ETH") 5 with status := Status.done })]
       ("aa11bb22")
     = some { mkBulkJob ("aa11bb22") 0 7 ("ETH") 5 with status := Status.done })
    ∧ ((terminalStatus
          ({ mkBulkJob ("aa11bb22") 0 7 ("ETH") 5 with
               status := Status.done }).status →
          (cbPauseJob
             [(("aa11bb22" : String),
               { mkBulkJob ("aa11bb22") 0 7 ("ETH") 5 with
                   status := Status.done })] ("aa11bb22") 7 []).2
            = [(("aa11bb22" : String),
                { mkBulkJob ("aa11bb22") 0 7 ("ETH") 5 with
                    status := Status.done })]
          ∧ (cbResumeJob
               [(("aa11bb22" : String),
                 { mkBulkJob ("aa11bb22") 0 7 ("ETH") 5 with
                     status := Status.done })] ("aa11bb22") 7 []).2
              = [(("aa11bb22" : String),
                  { mkBulkJob ("aa11bb22") 0 7 ("ETH") 5 with
                      status := Status.done })]
          ∧ (cbCancelJob
               [(("aa11bb22" : String),
                 { mkBulkJob ("aa11bb22") 0 7 ("ETH") 5 with
                     status := Status.done })] ("aa11bb22") 7 []).2
              = [(("aa11bb22" : String),
                  { mkBulkJob ("aa11bb22") 0 7 ("ETH") 5 with
                      status := Status.done })])
       ∧ (({ mkBulkJob ("aa11bb22") 0 7 ("ETH") 5 with
               status := Status.done }).status = .paused
          ∧ ({ mkBulkJob ("aa11bb22") 0 7 ("ETH") 5 with
                 status := Status.done }).pause_event = true →
            (cmdPause
               [(("aa11bb22" : String),
                 { mkBulkJob ("aa11bb22") 0 7 ("ETH") 5 with
                     status := Status.done })] ("aa11bb22") 7 []).2
              = [(("aa11bb22" : String),
                  { mkBulkJob ("aa11bb22") 0 7 ("ETH") 5 with
                      status := Status.done })])
       ∧ (cmdCancel
            (cmdCancel
               [(("aa11bb22" : String),
                 { mkBulkJob ("aa11bb22") 0 7 ("ETH") 5 with
                     status := Status.done })] ("aa11bb22") 7 []).2
            ("aa11bb22") 7 []).2
          = (cmdCancel
               [(("aa11bb22" : String),
                 { mkBulkJob ("aa11bb22") 0 7 ("ETH") 5 with
                     status := Status.done })] ("aa11bb22") 7 []).2) :=
  ⟨by decide,
   c5_amended
     [(("aa11bb22" : String),
       { mkBulkJob ("aa11bb22") 0 7 ("ETH") 5 with status := Status.done })]
     ("aa11bb22") 7 []
     { mkBulkJob ("aa11bb22") 0 7 ("ETH") 5 with status := Status.done }
     (by decide)⟩

/-! ### Worker machine: basic reachability and invariants -/

lemma wreach_refl (faults : Nat → Bool) (cfg : Cfg) (count : Nat)
    (s : WState) : WReach faults cfg count s s := ⟨0, rfl⟩

lemma wreach_trans {faults : Nat → Bool} {cfg : Cfg} {count : Nat}
    {s t u : WState} (h1 : WReach faults cfg count s t)
    (h2 : WReach faults cfg count t u) : WReach faults cfg count s u := by
  obtain ⟨a, ha⟩ := h1
  obtain ⟨b, hb⟩ := h2
  exact ⟨b + a, by rw [Function.iterate_add_apply, ha, hb]⟩

lemma wreach_single {faults : Nat → Bool} {cfg : Cfg} {count : Nat}
    {s t : WState} (h : workerStep faults cfg count s = t) :
    WReach faults cfg count s t := ⟨1, h⟩

/-- The worker thread never touches the two event flags. -/
lemma workerStep_events (faults : Nat → Bool) (cfg : Cfg) (count : Nat)
    (s : WState) :
    (workerStep faults cfg count s).pause_event = s.pause_event
    ∧ (workerStep faults cfg count s).stop_event = s.stop_event := by
  obtain ⟨p, st, pe, se, idx, jr, ch, cs, zb, zr, pc⟩ := s
  cases pc <;> simp [workerStep] <;> split_ifs <;> simp

/-- The structural invariant of the worker loop that makes
`processed ≤ count` inductive. -/
def WInv (count : Nat) (s : WState) : Prop :=
  match s.pc with
  | .outerCheck | .outerWait | .chunkStart =>
    s.processed ≤ s.idx ∧ s.idx ≤ count
  | .innerCheck | .chunkEnd =>
    s.processed ≤ s.idx + s.jrow ∧ s.jrow ≤ s.chunk
    ∧ s.idx + s.chunk ≤ count
  | .innerWait | .genRow =>
    s.processed ≤ s.idx + s.jrow ∧ s.jrow < s.chunk
    ∧ s.idx + s.chunk ≤ count
  | .packageZips | .finalize | .crashed | .finished => s.processed ≤ count

lemma winv_init (count : Nat) : WInv count initW := by
  simp [WInv, initW]

lemma winv_processed_le {count : Nat} {s : WState} (h : WInv count s) :
    s.processed ≤ count := by
  obtain ⟨p, st, pe, se, idx, jr, ch, cs, zb, zr, pc⟩ := s
  cases pc <;> (show p ≤ count; dsimp only [WInv] at h) <;> omega

lemma winv_step (faults : Nat → Bool) (cfg : Cfg) (count : Nat)
    (s : WState) (a : Act) (h : WInv count s) :
    WInv count (applyAct faults cfg count s a) := by
  obtain ⟨p, st, pe, se, idx, jr, ch, cs, zb, zr, pc⟩ := s
  cases a
  case pauseCmd => exact h
  case resumeCmd => exact h
  case cancelCmd => exact h
  case pauseCb =>
    simp only [applyAct, cbPause, ctrlPause]
    split_ifs <;> exact h
  case resumeCb =>
    simp only [applyAct, cbResume, ctrlResume]
    split_ifs <;> exact h
  case cancelCb =>
    simp only [applyAct, cbCancel, ctrlCancel]
    split_ifs <;> exact h
  case w =>
    simp only [applyAct]
    cases pc <;>
      (try dsimp only [WInv, workerStep] at h ⊢) <;>
      (try split_ifs) <;>
      (try dsimp only [WInv]) <;>
      omega

lemma winv_runActs (faults : Nat → Bool) (cfg : Cfg) (count : Nat) :
    ∀ (acts : List Act) (s : WState), WInv count s →
      WInv count (runActs faults cfg count s acts) := by
  intro acts
  induction acts with
  | nil => intro s h; exact h
  | cons a rest ih =>
    intro s h
    exact ih (applyAct faults cfg count s a)
      (winv_step faults cfg count s a h)

lemma getJob_some {m : JobMap} {jid : String} {req : Int}
    {admins : List Int} {j : BulkJob}
    (hg : getJob m jid req admins = some j) : lookupJob m jid = some j := by
  unfold getJob at hg
  cases hl : lookupJob m jid with
  | none => rw [hl] at hg; cases hg
  | some j' =>
    rw [hl] at hg
    dsimp only at hg
    split_ifs at hg
    simp_all

lemma applyAct_processed_mono (faults : Nat → Bool) (cfg : Cfg)
    (count : Nat) (s : WState) (a : Act) :
    s.processed ≤ (applyAct faults cfg count s a).processed := by
  obtain ⟨p, st, pe, se, idx, jr, ch, cs, zb, zr, pc⟩ := s
  cases a
  case w =>
    dsimp only [applyAct]
    cases pc <;>
      (try dsimp only [workerStep]) <;>
      (try split_ifs) <;>
      (try dsimp only) <;>
      omega
  case pauseCmd => exact le_refl _
  case resumeCmd => exact le_refl _
  case cancelCmd => exact le_refl _
  case pauseCb =>
    dsimp only [applyAct, cbPause, ctrlPause]
    split_ifs <;> exact le_refl _
  case resumeCb =>
    dsimp only [applyAct, cbResume, ctrlResume]
    split_ifs <;> exact le_refl _
  case cancelCb =>
    dsimp only [applyAct, cbCancel, ctrlCancel]
    split_ifs <;> exact le_refl _

lemma runActs_processed_mono (faults : Nat → Bool) (cfg : Cfg)
    (count : Nat) : ∀ (acts : List Act) (s : WState),
      s.processed ≤ (runActs faults cfg count s acts).processed := by
  intro acts
  induction acts with
  | nil => intro s; exact le_refl _
  | cons a rest ih =>
    intro s
    exact le_trans (applyAct_processed_mono faults cfg count s a)
      (ih (applyAct faults cfg count s a))

lemma runActs_append (faults : Nat → Bool) (cfg : Cfg) (count : Nat)
    (s : WState) (l₁ l₂ : List Act) :
    runActs faults cfg count s (l₁ ++ l₂)
      = runActs faults cfg count (runActs faults cfg count s l₁) l₂ :=
  List.foldl_append _ _ _ _

lemma applyAct_ctrl_processed (faults : Nat → Bool) (cfg : Cfg)
    (count : Nat) (s : WState) (a : Act) (ha : a ≠ Act.w) :
    (applyAct faults cfg count s a).processed = s.processed := by
  cases a
  case w => exact absurd rfl ha
  case pauseCmd => rfl
  case resumeCmd => rfl
  case cancelCmd => rfl
  all_goals
    simp only [applyAct, cbPause, cbResume, cbCancel, ctrlPause,
               ctrlResume, ctrlCancel]
  all_goals split_ifs <;> rfl

/-- C2.  At every point of every interleaving of the worker with
controller operations, a job's `processed` counter (a natural number,
hence non-negative) never exceeds `count`; it is non-decreasing over time;
and it is changed only by worker steps — every controller action
(text command or callback) leaves it exactly as it was, both on the
machine state and, for `cmd_pause`/`cmd_resume`/`cmd_cancel` and the
callbacks, on the whole registry's `processed` view; and `cmd_bulkzip`'s
submit path never changes the `processed` of any existing job: when the
freshly drawn id is unused it either leaves the registry's `processed`
view unchanged (validation failure) or extends it with the new record at
`processed = 0`. -/
theorem c2_processed_invariant (faults : Nat → Bool) (cfg : Cfg)
    (count : Nat) (acts acts' : List Act) (a : Act) (m : JobMap)
    (jid : String) (req : Int) (admins : List Int) (fresh : String)
    (now : Int) (uid : Int) (chain : String) (cnt maxC maxNA : Int)
    (ha : a ≠ Act.w) :
    (runActs faults cfg count initW acts).processed ≤ count
    ∧ (runActs faults cfg count initW acts).processed
        ≤ (runActs faults cfg count initW (acts ++ acts')).processed
    ∧ (applyAct faults cfg count (runActs faults cfg count initW acts) a).processed
        = (runActs faults cfg count initW acts).processed
    ∧ procView (cmdPause m jid req admins).2 = procView m
    ∧ procView (cmdResume m jid req admins).2 = procView m
    ∧ procView (cmdCancel m jid req admins).2 = procView m
    ∧ procView (cbPauseJob m jid req admins).2 = procView m
    ∧ procView (cbResumeJob m jid req admins).2 = procView m
    ∧ procView (cbCancelJob m jid req admins).2 = procView m
    ∧ (lookupJob m fresh = none →
         procView (submitBulk fresh now uid admins chain cnt maxC maxNA m).2
             = procView m
         ∨ procView (submitBulk fresh now uid admins chain cnt maxC maxNA m).2
             = procView m ++ [(fresh, (0 : Int))]) := by
  refine ⟨?_, ?_, ?_, ?_, ?_, ?_, ?_, ?_, ?_, ?_⟩
  · exact winv_processed_le
      (winv_runActs faults cfg count acts initW (winv_init count))
  · rw [runActs_append]
    exact runActs_processed_mono faults cfg count acts' _
  · exact applyAct_ctrl_processed faults cfg count _ a ha
  · unfold cmdPause
    cases hg : getJob m jid req admins with
    | none => rfl
    | some j => exact procView_setJob (getJob_some hg) rfl
  · unfold cmdResume
    cases hg : getJob m jid req admins with
    | none => rfl
    | some j => exact procView_setJob (getJob_some hg) rfl
  · unfold cmdCancel
    cases hg : getJob m jid req admins with
    | none => rfl
    | some j => exact procView_setJob (getJob_some hg) rfl
  · unfold cbPauseJob
    cases hl : lookupJob m jid with
    | none => rfl
    | some j =>
      dsimp only
      split_ifs
      · rfl
      · exact procView_setJob hl rfl
      · rfl
  · unfold cbResumeJob
    cases hl : lookupJob m jid with
    | none => rfl
    | some j =>
      dsimp only
      split_ifs
      · rfl
      · exact procView_setJob hl rfl
      · rfl
  · unfold cbCancelJob
    cases hl : lookupJob m jid with
    | none => rfl
    | some j =>
      dsimp only
      split_ifs
      · rfl
      · exact procView_setJob hl rfl
      · rfl
  · intro hfr
    unfold submitBulk
    split_ifs
    · exact Or.inl rfl
    · exact Or.inl rfl
    · exact Or.inl rfl
    · right
      dsimp only
      rw [upsert_of_lookup_none hfr]
      unfold procView
      rw [List.map_append]
      rfl

/-- Witness for C2 at a concrete schedule: three worker steps, then a
`cancel`, on a count-2 job, with a one-job registry; the submit frame is
exercised by a fresh-id submission into the same registry. -/
theorem c2_witness :
    (Act.cancelCmd ≠ Act.w)
    ∧ ((runActs noFaults defaultCfg 2 initW [.w, .w, .w]).processed ≤ 2
       ∧ (runActs noFaults defaultCfg 2 initW [.w, .w, .w]).processed
           ≤ (runActs noFaults defaultCfg 2 initW
                ([.w, .w, .w] ++ [.w, .w])).processed
       ∧ (applyAct noFaults defaultCfg 2
            (runActs noFaults defaultCfg 2 initW [.w, .w, .w])
            Act.cancelCmd).processed
           = (runActs noFaults defaultCfg 2 initW [.w, .w, .w]).processed
       ∧ procView (cmdPause
            [(("aaaa0001" : String), mkBulkJob ("aaaa0001") 5 1 ("ETH") 3)]
            ("aaaa0001") 1 []).2
           = procView
               [(("aaaa0001" : String), mkBulkJob ("aaaa0001") 5 1 ("ETH") 3)]
       ∧ procView (cmdResume
            [(("aaaa0001" : String), mkBulkJob ("aaaa0001") 5 1 ("ETH") 3)]
            ("aaaa0001") 1 []).2
           = procView
               [(("aaaa0001" : String), mkBulkJob ("aaaa0001") 5 1 ("ETH") 3)]
       ∧ procView (cmdCancel
            [(("aaaa0001" : String), mkBulkJob ("aaaa0001") 5 1 ("ETH") 3)]
            ("aaaa0001") 1 []).2
           = procView
               [(("aaaa0001" : String), mkBulkJob ("aaaa0001") 5 1 ("ETH") 3)]
       ∧ procView (cbPauseJob
            [(("aaaa0001" : String), mkBulkJob ("aaaa0001") 5 1 ("ETH") 3)]
            ("aaaa0001") 1 []).2
           = procView
               [(("aaaa0001" : String), mkBulkJob ("aaaa0001") 5 1 ("ETH") 3)]
       ∧ procView (cbResumeJob
            [(("aaaa0001" : String), mkBulkJob ("aaaa0001") 5 1 ("ETH") 3)]
            ("aaaa0001") 1 []).2
           = procView
               [(("aaaa0001" : String), mkBulkJob ("aaaa0001") 5 1 ("ETH") 3)]
       ∧ procView (cbCancelJob
            [(("aaaa0001" : String), mkBulkJob ("aaaa0001") 5 1 ("ETH") 3)]
            ("aaaa0001") 1 []).2
           = procView
               [(("aaaa0001" : String), mkBulkJob ("aaaa0001") 5 1 ("ETH") 3)]
       ∧ (lookupJob
            [(("aaaa0001" : String), mkBulkJob ("aaaa0001") 5 1 ("ETH") 3)]
            ("bbbb0002") = none →
          procView (submitBulk ("bbbb0002") 0 1 [] ("ETH") 3 1000000 100000
             [(("aaaa0001" : String),
               mkBulkJob ("aaaa0001") 5 1 ("ETH") 3)]).2
             = procView
                 [(("aaaa0001" : String), mkBulkJob ("aaaa0001") 5 1 ("ETH") 3)]
          ∨ procView (submitBulk ("bbbb0002") 0 1 [] ("ETH") 3 1000000 100000
               [(("aaaa0001" : String),
                 mkBulkJob ("aaaa0001") 5 1 ("ETH") 3)]).2
             = procView
                 [(("aaaa0001" : String), mkBulkJob ("aaaa0001") 5 1 ("ETH") 3)]
               ++ [(("bbbb0002" : String), (0 : Int))])) :=
  ⟨by decide,
   c2_processed_invariant noFaults defaultCfg 2 [.w, .w, .w] [.w, .w]
     Act.cancelCmd
     [(("aaaa0001" : String), mkBulkJob ("aaaa0001") 5 1 ("ETH") 3)]
     ("aaaa0001") 1 [] ("bbbb0002") 0 1 ("ETH") 3 1000000 100000
     (by decide)⟩

/-! ### Running the worker to completion (no signals) -/

/-- One row of the inner loop with no signals set and no fault: three
steps (row check, pause poll, generate + write) advance `processed` and
`jrow` by one. -/
lemma inner_row_step (faults : Nat → Bool) (cfg : Cfg) (count : Nat)
    (s : WState) (hpc : s.pc = .innerCheck) (hpe : s.pause_event = false)
    (hse : s.stop_event = false) (hlt : s.jrow < s.chunk)
    (hf : faults s.processed = false) :
    (workerStep faults cfg count)^[3] s
      = { s with processed := s.processed + 1, jrow := s.jrow + 1,
                 pc := .innerCheck } := by
  obtain ⟨p, st, pe, se, idx, jr, ch, cs, zb, zr, pc⟩ := s
  dsimp only at hpc hpe hse hlt hf
  subst hpc hpe hse
  show workerStep faults cfg count
    (workerStep faults cfg count (workerStep faults cfg count _)) = _
  simp [workerStep, hlt, hf]

/-- The inner loop, run with no signals and no faults over its remaining
`m` rows, reaches the chunk end having generated exactly those rows. -/
lemma inner_run (faults : Nat → Bool) (cfg : Cfg) (count : Nat) :
    ∀ (m : Nat) (s : WState), s.pc = .innerCheck →
      s.pause_event = false → s.stop_event = false →
      s.chunk = s.jrow + m →
      (∀ i, s.processed ≤ i → i < s.processed + m → faults i = false) →
      WReach faults cfg count s
        { s with processed := s.processed + m, jrow := s.jrow + m,
                 pc := .chunkEnd } := by
  intro m
  induction m with
  | zero =>
    intro s hpc hpe hse hch _
    refine ⟨1, ?_⟩
    obtain ⟨p, st, pe, se, idx, jr, ch, cs, zb, zr, pc⟩ := s
    dsimp only at hpc hpe hse hch
    subst hpc hpe hse hch
    simp [workerStep]
  | succ k ih =>
    intro s hpc hpe hse hch hf
    have hlt : s.jrow < s.chunk := by omega
    have hf0 : faults s.processed = false := hf s.processed (le_refl _) (by omega)
    have h3 := inner_row_step faults cfg count s hpc hpe hse hlt hf0
    have hnext := ih { s with processed := s.processed + 1,
                              jrow := s.jrow + 1, pc := .innerCheck }
      rfl hpe hse (by dsimp only; omega)
      (by
        intro i hi1 hi2
        dsimp only at hi1 hi2
        exact hf i (by omega) (by omega))
    refine wreach_trans ⟨3, h3⟩ (wreach_trans hnext ⟨0, ?_⟩)
    obtain ⟨p, st, pe, se, idx, jr, ch, cs, zb, zr, pc⟩ := s
    simp only [Function.iterate_zero_apply]
    simp [WState.mk.injEq]
    try omega

/-- One full chunk, run with no signals and no faults: from the top of the
outer loop with `idx < count`, reach the top of the outer loop again with
`idx` and `processed` advanced by the chunk size and one more CSV file. -/
lemma chunk_run (faults : Nat → Bool) (cfg : Cfg) (count : Nat)
    (s : WState) (hpc : s.pc = .outerCheck) (hpe : s.pause_event = false)
    (hse : s.stop_event = false) (hst : s.status = .running)
    (hidx : s.idx < count)
    (hf : ∀ i, s.processed ≤ i →
            i < s.processed + min cfg.csvChunk (count - s.idx) →
            faults i = false) :
    WReach faults cfg count s
      { s with processed := s.processed + min cfg.csvChunk (count - s.idx),
               idx := s.idx + min cfg.csvChunk (count - s.idx),
               jrow := min cfg.csvChunk (count - s.idx),
               chunk := min cfg.csvChunk (count - s.idx),
               csvs := s.csvs + 1, pc := .outerCheck } := by
  obtain ⟨p, st, pe, se, idx, jr, ch, cs, zb, zr, pc⟩ := s
  dsimp only at hpc hpe hse hst hidx hf ⊢
  subst hpc hpe hse hst
  -- three steps to the top of the inner loop
  have h3 : (workerStep faults cfg count)^[3]
      ⟨p, .running, false, false, idx, jr, ch, cs, zb, zr, .outerCheck⟩
      = ⟨p, .running, false, false, idx, 0,
         min cfg.csvChunk (count - idx), cs, zb, zr, .innerCheck⟩ := by
    show workerStep faults cfg count
      (workerStep faults cfg count (workerStep faults cfg count _)) = _
    simp [workerStep, hidx]
  have hinner := inner_run faults cfg count (min cfg.csvChunk (count - idx))
    ⟨p, .running, false, false, idx, 0,
     min cfg.csvChunk (count - idx), cs, zb, zr, .innerCheck⟩
    rfl rfl rfl (by dsimp only; omega) (by dsimp only; exact hf)
  have hend : workerStep faults cfg count
      ⟨p + min cfg.csvChunk (count - idx), .running, false, false, idx,
       0 + min cfg.csvChunk (count - idx), min cfg.csvChunk (count - idx),
       cs, zb, zr, .chunkEnd⟩
      = ⟨p + min cfg.csvChunk (count - idx), .running, false, false,
         idx + min cfg.csvChunk (count - idx),
         0 + min cfg.csvChunk (count - idx), min cfg.csvChunk (count - idx),
         cs + 1, zb, zr, .outerCheck⟩ := by
    simp [workerStep]
  refine wreach_trans ⟨3, h3⟩ (wreach_trans hinner
    (wreach_trans (wreach_single hend) ⟨0, ?_⟩))
  simp only [Function.iterate_zero_apply]
  simp [WState.mk.injEq]
  try omega

/-- The whole generation loop, run with no signals and no faults: from the
top of the outer loop with `processed = idx`, reach the packaging phase
with `processed = count`, still `running`, having written at least one
more CSV whenever rows remained. -/
lemma outer_run (faults : Nat → Bool) (cfg : Cfg) (count : Nat)
    (hchunk : 0 < cfg.csvChunk) :
    ∀ (d : Nat) (s : WState), s.pc = .outerCheck →
      s.pause_event = false → s.stop_event = false →
      s.status = .running → count - s.idx = d → s.idx ≤ count →
      s.processed = s.idx →
      (∀ i, i < count → faults i = false) →
      ∃ s' : WState, WReach faults cfg count s s' ∧ s'.pc = .packageZips
        ∧ s'.processed = count ∧ s'.idx = count ∧ s'.status = .running
        ∧ s'.pause_event = false ∧ s'.stop_event = false
        ∧ s.csvs ≤ s'.csvs ∧ (0 < d → s.csvs < s'.csvs)
        ∧ s'.zipsBuilt = s.zipsBuilt ∧ s'.zipRec = s.zipRec := by
  intro d
  induction d using Nat.strong_induction_on with
  | _ d ih =>
    intro s hpc hpe hse hst hd hle hpi hf
    by_cases hidx : s.idx < count
    · -- run one chunk, then recurse
      have hfc : ∀ i, s.processed ≤ i →
          i < s.processed + min cfg.csvChunk (count - s.idx) →
          faults i = false := by
        intro i _ hi2
        have : min cfg.csvChunk (count - s.idx) ≤ count - s.idx :=
          Nat.min_le_right _ _
        exact hf i (by omega)
      have hch := chunk_run faults cfg count s hpc hpe hse hst hidx hfc
      set c := min cfg.csvChunk (count - s.idx) with hc
      have hcpos : 0 < c := by
        rw [hc]
        exact lt_min hchunk (by omega)
      have hcle : c ≤ count - s.idx := Nat.min_le_right _ _
      obtain ⟨s', hreach, h1, h2, h3, h4, h5, h6, h7, h8, h9, h10⟩ :=
        ih (d - c) (by omega)
          { s with processed := s.processed + c, idx := s.idx + c,
                   jrow := c, chunk := c, csvs := s.csvs + 1,
                   pc := .outerCheck }
          rfl hpe hse hst (by dsimp only; omega) (by dsimp only; omega)
          (by dsimp only; omega) hf
      refine ⟨s', wreach_trans hch hreach, h1, h2, h3, h4, h5, h6, ?_, ?_,
              h9, h10⟩
      · dsimp only at h7; omega
      · intro _; dsimp only at h7; omega
    · -- idx = count: one step into packaging
      have hidxeq : s.idx = count := by omega
      refine ⟨{ s with pc := .packageZips }, ⟨1, ?_⟩, rfl, by dsimp only; omega,
              by dsimp only; omega, by dsimp only; exact hst,
              by dsimp only; exact hpe, by dsimp only; exact hse,
              le_refl _, by intro h0; omega, rfl, rfl⟩
      obtain ⟨p, st, pe, se, idx, jr, ch, cs, zb, zr, pc⟩ := s
      dsimp only at hpc hidx ⊢
      subst hpc
      simp [workerStep, hidx]

/-- C1.  For every submission accepted by `cmd_bulkzip` (supported chain,
count within the requester's bounds), running the worker to completion
with the pause and stop signals never set and no derivation faults ends
with `processed = count`, status `done`, and the produced ZIP archives
recorded on the job record (at least one archive). -/
theorem c1_valid_submission_completes (faults : Nat → Bool) (cfg : Cfg)
    (fresh : String) (now : Int) (uid : Int) (admins : List Int)
    (chain : String) (count maxC maxNA : Int) (m m' : JobMap) (j : BulkJob)
    (hsub : submitBulk fresh now uid admins chain count maxC maxNA m
              = (.created j, m'))
    (hchunk : 0 < cfg.csvChunk) (hzip : 0 < cfg.zipCsvs)
    (hf : ∀ i, faults i = false) :
    ∃ s' : WState, WReach faults cfg j.count.toNat initW s'
      ∧ s'.pc = .finished ∧ s'.processed = j.count.toNat
      ∧ s'.status = .done ∧ s'.pause_event = false ∧ s'.stop_event = false
      ∧ s'.zipRec = some s'.zipsBuilt ∧ 0 < s'.zipsBuilt := by
  -- invert the submission: it was accepted, so 0 < count and j.count = count
  have hj : j.count = count ∧ 0 < count := by
    unfold submitBulk at hsub
    split_ifs at hsub with h1 h2 h3
    · exact absurd (congrArg Prod.fst hsub) (by simp)
    · exact absurd (congrArg Prod.fst hsub) (by simp)
    · exact absurd (congrArg Prod.fst hsub) (by simp)
    · have := congrArg Prod.fst hsub
      simp only at this
      have hjeq := SubmitResult.created.inj this.symm
      constructor
      · rw [hjeq]; rfl
      · omega
  set n := j.count.toNat with hn
  have hnpos : 0 < n := by rw [hn]; omega
  obtain ⟨s1, hreach, hpc1, hproc1, hidx1, hst1, hpe1, hse1, hcs0, hcs1,
          hzb1, hzr1⟩ :=
    outer_run faults cfg n hchunk n initW rfl rfl rfl rfl (by simp [initW])
      (by simp [initW]) rfl (fun i _ => hf i)
  have hcsvs : 0 < s1.csvs := by
    have := hcs1 hnpos
    simp [initW] at this
    omega
  obtain ⟨p1, st1, pe1, se1, idx1, jr1, ch1, cs1, zb1, zr1, pc1⟩ := s1
  dsimp only at hpc1 hproc1 hidx1 hst1 hpe1 hse1 hcsvs
  subst hpc1 hst1 hpe1 hse1
  have hne : cs1 ≠ 0 := by omega
  have hstep1 : workerStep faults cfg n
      ⟨p1, .running, false, false, idx1, jr1, ch1, cs1, zb1, zr1,
       .packageZips⟩
      = ⟨p1, .running, false, false, idx1, jr1, ch1, cs1,
         numZips cfg cs1, zr1, .finalize⟩ := by
    simp [workerStep, hne]
  have hstep2 : workerStep faults cfg n
      ⟨p1, .running, false, false, idx1, jr1, ch1, cs1,
       numZips cfg cs1, zr1, .finalize⟩
      = ⟨p1, .done, false, false, idx1, jr1, ch1, cs1,
         numZips cfg cs1, some (numZips cfg cs1), .finished⟩ := by
    simp [workerStep]
  refine ⟨⟨p1, .done, false, false, idx1, jr1, ch1, cs1,
           numZips cfg cs1, some (numZips cfg cs1), .finished⟩,
          wreach_trans hreach
            (wreach_trans (wreach_single hstep1) (wreach_single hstep2)),
          rfl, hproc1, rfl, rfl, rfl, rfl, ?_⟩
  show 0 < numZips cfg cs1
  exact Nat.div_pos (by omega) hzip

/-- Witness for C1: user 1 submits 3 ETH wallets (accepted), and the
worker, run alone with no faults, finishes `done` with 3 processed and one
recorded ZIP. -/
theorem c1_witness :
    (submitBulk ("aaaa0001") 0 1 [] ("ETH") 3 1000000 100000 []
       = (.created (mkBulkJob ("aaaa0001") 0 1 ("ETH") 3),
          upsert [] (mkBulkJob ("aaaa0001") 0 1 ("ETH") 3))
     ∧ 0 < defaultCfg.csvChunk ∧ 0 < defaultCfg.zipCsvs
     ∧ ∀ i : Nat, noFaults i = false)
    ∧ ∃ s' : WState,
        WReach noFaults defaultCfg
          (mkBulkJob ("aaaa0001") 0 1 ("ETH") 3).count.toNat initW s'
        ∧ s'.pc = .finished
        ∧ s'.processed = (mkBulkJob ("aaaa0001") 0 1 ("ETH") 3).count.toNat
        ∧ s'.status = .done ∧ s'.pause_event = false ∧ s'.stop_event = false
        ∧ s'.zipRec = some s'.zipsBuilt ∧ 0 < s'.zipsBuilt :=
  ⟨⟨by decide, by decide, by decide, fun i => rfl⟩,
   c1_valid_submission_completes noFaults defaultCfg ("aaaa0001") 0 1 []
     ("ETH") 3 1000000 100000 []
     (upsert [] (mkBulkJob ("aaaa0001") 0 1 ("ETH") 3))
     (mkBulkJob ("aaaa0001") 0 1 ("ETH") 3) (by decide) (by decide)
     (by decide) (fun i => rfl)⟩

/-! ### Derivation faults: the exception path -/

/-- Inside a chunk, with no signals, if the first faulting derivation call
is row `k` (counted in `processed`), the worker reaches the `crashed`
point with `processed = k`: the exception escapes the loop. -/
lemma inner_fault (faults : Nat → Bool) (cfg : Cfg) (count : Nat) :
    ∀ (m : Nat) (s : WState), s.pc = .innerCheck →
      s.pause_event = false → s.stop_event = false →
      s.chunk = s.jrow + m →
      ∀ k, s.processed ≤ k → k < s.processed + m →
      (∀ i, s.processed ≤ i → i < k → faults i = false) →
      faults k = true →
      WReach faults cfg count s
        { s with processed := k, jrow := s.jrow + (k - s.processed),
                 pc := .crashed } := by
  intro m
  induction m with
  | zero => intro s _ _ _ _ k hk1 hk2 _ _; omega
  | succ m' ih =>
    intro s hpc hpe hse hch k hk1 hk2 hbef hfk
    have hlt : s.jrow < s.chunk := by omega
    by_cases hke : k = s.processed
    · -- the very next call faults
      subst hke
      refine ⟨3, ?_⟩
      obtain ⟨p, st, pe, se, idx, jr, ch, cs, zb, zr, pc⟩ := s
      dsimp only at hpc hpe hse hlt hfk ⊢
      subst hpc hpe hse
      show workerStep faults cfg count
        (workerStep faults cfg count (workerStep faults cfg count _)) = _
      simp [workerStep, hlt, hfk]
    · -- generate one good row, then recurse
      have hf0 : faults s.processed = false :=
        hbef s.processed (le_refl _) (by omega)
      have h3 := inner_row_step faults cfg count s hpc hpe hse hlt hf0
      have hnext := ih { s with processed := s.processed + 1,
                                jrow := s.jrow + 1, pc := .innerCheck }
        rfl hpe hse (by dsimp only; omega) k (by dsimp only; omega)
        (by dsimp only; omega)
        (by
          intro i hi1 hi2
          dsimp only at hi1 hi2
          exact hbef i (by omega) (by omega))
        hfk
      refine wreach_trans ⟨3, h3⟩ (wreach_trans hnext ⟨0, ?_⟩)
      obtain ⟨p, st, pe, se, idx, jr, ch, cs, zb, zr, pc⟩ := s
      simp only [Function.iterate_zero_apply]
      simp at hk1 hke
      simp [WState.mk.injEq]
      omega

/-- From the top of the outer loop with no signals, if the first faulting
derivation call is row `k < count`, the worker crashes out and
`run_and_report` marks the job `failed` with `processed = k`; no ZIP is
built or recorded. -/
lemma outer_fault (faults : Nat → Bool) (cfg : Cfg) (count : Nat)
    (hchunk : 0 < cfg.csvChunk) :
    ∀ (d : Nat) (s : WState), s.pc = .outerCheck →
      s.pause_event = false → s.stop_event = false →
      s.status = .running → count - s.idx = d → s.idx ≤ count →
      s.processed = s.idx →
      ∀ k, s.idx ≤ k → k < count →
      (∀ i, s.idx ≤ i → i < k → faults i = false) →
      faults k = true →
      ∃ s' : WState, WReach faults cfg count s s' ∧ s'.pc = .finished
        ∧ s'.status = .failed ∧ s'.processed = k
        ∧ s'.zipRec = s.zipRec ∧ s'.zipsBuilt = s.zipsBuilt := by
  intro d
  induction d using Nat.strong_induction_on with
  | _ d ih =>
    intro s hpc hpe hse hst hd hle hpi k hk1 hk2 hbef hfk
    have hidx : s.idx < count := by omega
    set c := min cfg.csvChunk (count - s.idx) with hc
    have hcpos : 0 < c := lt_min hchunk (by omega)
    have hcle : c ≤ count - s.idx := Nat.min_le_right _ _
    by_cases hkc : k < s.idx + c
    · -- the fault happens inside this chunk
      obtain ⟨p, st, pe, se, idx, jr, ch, cs, zb, zr, pc⟩ := s
      dsimp only at hpc hpe hse hst hd hle hpi hk1 hbef hidx hc hkc ⊢
      subst hpc hpe hse hst
      have h3 : (workerStep faults cfg count)^[3]
          ⟨p, .running, false, false, idx, jr, ch, cs, zb, zr, .outerCheck⟩
          = ⟨p, .running, false, false, idx, 0, c, cs, zb, zr,
             .innerCheck⟩ := by
        show workerStep faults cfg count
          (workerStep faults cfg count (workerStep faults cfg count _)) = _
        simp [workerStep, hidx, hc]
      have hinner := inner_fault faults cfg count c
        ⟨p, .running, false, false, idx, 0, c, cs, zb, zr, .innerCheck⟩
        rfl rfl rfl (by dsimp only; omega) k (by dsimp only; omega)
        (by dsimp only; omega)
        (by
          intro i hi1 hi2
          dsimp only at hi1 hi2
          exact hbef i (by omega) (by omega))
        hfk
      have hcrash : workerStep faults cfg count
          ⟨k, .running, false, false, idx, 0 + (k - p), c, cs, zb, zr,
           .crashed⟩
          = ⟨k, .failed, false, false, idx, 0 + (k - p), c, cs, zb, zr,
             .finished⟩ := by
        simp [workerStep]
      exact ⟨⟨k, .failed, false, false, idx, 0 + (k - p), c, cs, zb, zr,
              .finished⟩,
             wreach_trans ⟨3, h3⟩
               (wreach_trans hinner (wreach_single hcrash)),
             rfl, rfl, rfl, rfl, rfl⟩
    · -- this chunk completes; recurse on the next one
      have hfc : ∀ i, s.processed ≤ i → i < s.processed + c →
          faults i = false := by
        intro i hi1 hi2
        exact hbef i (by omega) (by omega)
      have hch := chunk_run faults cfg count s hpc hpe hse hst hidx
        (by rw [← hc]; exact hfc)
      rw [← hc] at hch
      obtain ⟨s', hreach, h1, h2, h3, h4, h5⟩ :=
        ih (d - c) (by omega)
          { s with processed := s.processed + c, idx := s.idx + c,
                   jrow := c, chunk := c, csvs := s.csvs + 1,
                   pc := .outerCheck }
          rfl hpe hse hst (by dsimp only; omega) (by dsimp only; omega)
          (by dsimp only; omega) k (by dsimp only; omega) hk2
          (by
            intro i hi1 hi2
            dsimp only at hi1
            exact hbef i (by omega) hi2)
          hfk
      exact ⟨s', wreach_trans hch hreach, h1, h2, h3, h4, h5⟩

/-- C6 counterexample.  A fault in the very first derivation call is
**not** absorbed: with every call faulting, a count-1 job run by the
worker alone ends `failed` (never `done`) with `processed = 0` — the
exception propagated out of the loop and `run_and_report` failed the
job. -/
theorem c6_counterexample :
    (runActs allFaults defaultCfg 1 initW
       [.w, .w, .w, .w, .w, .w, .w]).status = .failed
    ∧ (runActs allFaults defaultCfg 1 initW
         [.w, .w, .w, .w, .w, .w, .w]).processed = 0
    ∧ (runActs allFaults defaultCfg 1 initW
         [.w, .w, .w, .w, .w, .w, .w]).pc = .finished
    ∧ (runActs allFaults defaultCfg 1 initW
         [.w, .w, .w, .w, .w, .w, .w]).status ≠ .done := by decide

/-- C6 as amended.  A derivation fault is not absorbed by the per-row
loop: it propagates out of the Worker, `run_and_report` catches it and
marks the job `failed`, with `processed` frozen at the number of rows
generated before the fault, no ZIP built or recorded, and no further
worker activity (`finished` is a fixed point). -/
theorem c6_fault_propagates (faults : Nat → Bool) (cfg : Cfg)
    (count k : Nat) (hchunk : 0 < cfg.csvChunk) (hk : k < count)
    (hbefore : ∀ i, i < k → faults i = false) (hfault : faults k = true) :
    ∃ s' : WState, WReach faults cfg count initW s'
      ∧ s'.pc = .finished ∧ s'.status = .failed ∧ s'.processed = k
      ∧ s'.zipRec = none ∧ s'.zipsBuilt = 0
      ∧ workerStep faults cfg count s' = s' := by
  obtain ⟨s', hreach, h1, h2, h3, h4, h5⟩ :=
    outer_fault faults cfg count hchunk count initW rfl rfl rfl rfl
      (by simp [initW]) (by simp [initW]) rfl k (by simp [initW]) hk
      (fun i _ hi2 => hbefore i hi2) hfault
  refine ⟨s', hreach, h1, h2, h3, by simpa [initW] using h4,
          by simpa [initW] using h5, ?_⟩
  obtain ⟨p, st, pe, se, idx, jr, ch, cs, zb, zr, pc⟩ := s'
  dsimp only at h1
  subst h1
  rfl

/-- Witness for C6-as-amended: count 3, first fault at row 1. -/
theorem c6_witness :
    (0 < defaultCfg.csvChunk ∧ (1 : Nat) < 3
     ∧ (∀ i : Nat, i < 1 → (fun i => decide (1 ≤ i)) i = false)
     ∧ (fun i => decide (1 ≤ i)) 1 = true)
    ∧ ∃ s' : WState,
        WReach (fun i => decide (1 ≤ i)) defaultCfg 3 initW s'
        ∧ s'.pc = .finished ∧ s'.status = .failed ∧ s'.processed = 1
        ∧ s'.zipRec = none ∧ s'.zipsBuilt = 0
        ∧ workerStep (fun i => decide (1 ≤ i)) defaultCfg 3 s' = s' :=
  ⟨⟨by decide, by decide, by decide, by decide⟩,
   c6_fault_propagates (fun i => decide (1 ≤ i)) defaultCfg 3 1
     (by decide) (by decide) (by decide) (by decide)⟩

/-! ### The stop signal: monotonicity, status, and progress bounds -/

/-- No step ever clears the stop signal. -/
lemma applyAct_stop_mono (faults : Nat → Bool) (cfg : Cfg) (count : Nat)
    (s : WState) (a : Act) (h : s.stop_event = true) :
    (applyAct faults cfg count s a).stop_event = true := by
  cases a
  case w =>
    show (workerStep faults cfg count s).stop_event = true
    rw [(workerStep_events faults cfg count s).2]
    exact h
  case pauseCmd => exact h
  case resumeCmd => exact h
  case cancelCmd => rfl
  case pauseCb =>
    dsimp only [applyAct, cbPause, ctrlPause]
    split_ifs <;> exact h
  case resumeCb =>
    dsimp only [applyAct, cbResume, ctrlResume]
    split_ifs <;> exact h
  case cancelCb =>
    dsimp only [applyAct, cbCancel, ctrlCancel]
    split_ifs <;> first | rfl | exact h

lemma runActs_stop_mono (faults : Nat → Bool) (cfg : Cfg) (count : Nat) :
    ∀ (acts : List Act) (s : WState), s.stop_event = true →
      (runActs faults cfg count s acts).stop_event = true := by
  intro acts
  induction acts with
  | nil => intro s h; exact h
  | cons a rest ih =>
    intro s h
    exact ih _ (applyAct_stop_mono faults cfg count s a h)

/-- Whenever a step turns the stop signal on, that same step also sets the
status to `cancelled` (the only setters are the two cancel operations). -/
lemma stop_set_means_cancelled (faults : Nat → Bool) (cfg : Cfg)
    (count : Nat) (t : WState) (a : Act)
    (h : (applyAct faults cfg count t a).stop_event = true) :
    t.stop_event = true ∨ (applyAct faults cfg count t a).status = .cancelled := by
  cases a
  case w => exact Or.inl ((workerStep_events faults cfg count t).2 ▸ h)
  case pauseCmd => exact Or.inl h
  case resumeCmd => exact Or.inl h
  case cancelCmd => exact Or.inr rfl
  case pauseCb =>
    dsimp only [applyAct, cbPause, ctrlPause] at h ⊢
    split_ifs at h ⊢ <;> exact Or.inl h
  case resumeCb =>
    dsimp only [applyAct, cbResume, ctrlResume] at h ⊢
    split_ifs at h ⊢ <;> exact Or.inl h
  case cancelCb =>
    dsimp only [applyAct, cbCancel, ctrlCancel] at h ⊢
    split_ifs at h ⊢
    · exact Or.inr rfl
    · exact Or.inl h

/-- Under the guarded (callback) controls, a set stop signal pins the
status: `cancelled`, or `failed` at the very end if a derivation fault
crashed the worker.  In particular the status is never `done`. -/
def StopInv (s : WState) : Prop :=
  s.stop_event = true →
    s.status = .cancelled ∨ (s.pc = .finished ∧ s.status = .failed)

lemma stopinv_init : StopInv initW := by
  intro h
  exact absurd h (by simp [initW])

lemma stopinv_step (faults : Nat → Bool) (cfg : Cfg) (count : Nat)
    (s : WState) (a : Act) (hg : GuardedAct a) (h : StopInv s) :
    StopInv (applyAct faults cfg count s a) := by
  rcases hg with hg | hg | hg | hg <;> subst hg
  · -- worker step
    obtain ⟨p, st, pe, se, idx, jr, ch, cs, zb, zr, pc⟩ := s
    simp only [applyAct]
    cases pc <;>
      dsimp only [workerStep, StopInv] at h ⊢ <;>
      (try split_ifs) <;>
      intro hstop <;>
      (try dsimp only at hstop) <;>
      rcases h hstop with h1 | ⟨h1, h2⟩ <;>
      simp_all
  · -- pauseCb
    dsimp only [applyAct, cbPause, ctrlPause]
    split_ifs with hguard
    · intro hstop
      dsimp only at hstop
      rcases h hstop with h1 | ⟨h1, h2⟩ <;> simp_all
    · exact h
  · -- resumeCb
    dsimp only [applyAct, cbResume, ctrlResume]
    split_ifs with hguard
    · intro hstop
      dsimp only at hstop
      rcases h hstop with h1 | ⟨h1, h2⟩ <;> simp_all
    · exact h
  · -- cancelCb
    dsimp only [applyAct, cbCancel, ctrlCancel]
    split_ifs with hguard
    · intro _
      exact Or.inl rfl
    · exact h

lemma stopinv_run (faults : Nat → Bool) (cfg : Cfg) (count : Nat) :
    ∀ (acts : List Act) (s : WState), (∀ a ∈ acts, GuardedAct a) →
      StopInv s → StopInv (runActs faults cfg count s acts) := by
  intro acts
  induction acts with
  | nil => intro s _ h; exact h
  | cons a rest ih =>
    intro s hg h
    exact ih _ (fun b hb => hg b (by simp [hb]))
      (stopinv_step faults cfg count s a (hg a (by simp)) h)

/-- The progress potential: `processed`, plus one for the in-flight row
when the worker sits between the row's stop check and its write. -/
def phiW (s : WState) : Nat :=
  s.processed + (if s.pc = .genRow ∨ s.pc = .innerWait then 1 else 0)

lemma processed_le_phiW (s : WState) : s.processed ≤ phiW s :=
  Nat.le_add_right _ _

/-- Once the stop signal is set, no step increases the potential: at most
the one in-flight row is still written, and after its per-row check the
counter is frozen. -/
lemma phiW_step (faults : Nat → Bool) (cfg : Cfg) (count : Nat)
    (s : WState) (a : Act) (hstop : s.stop_event = true) :
    phiW (applyAct faults cfg count s a) ≤ phiW s := by
  obtain ⟨p, st, pe, se, idx, jr, ch, cs, zb, zr, pc⟩ := s
  dsimp only at hstop
  subst hstop
  cases a
  case pauseCmd => exact le_refl _
  case resumeCmd => exact le_refl _
  case cancelCmd => exact le_refl _
  case pauseCb =>
    dsimp only [applyAct, cbPause, ctrlPause]
    split_ifs <;> exact le_refl _
  case resumeCb =>
    dsimp only [applyAct, cbResume, ctrlResume]
    split_ifs <;> exact le_refl _
  case cancelCb =>
    dsimp only [applyAct, cbCancel, ctrlCancel]
    split_ifs <;> exact le_refl _
  case w =>
    dsimp only [applyAct]
    cases pc <;>
      dsimp only [workerStep, phiW] <;>
      (try split_ifs) <;>
      simp_all

lemma phiW_run (faults : Nat → Bool) (cfg : Cfg) (count : Nat) :
    ∀ (acts : List Act) (s : WState), s.stop_event = true →
      phiW (runActs faults cfg count s acts) ≤ phiW s := by
  intro acts
  induction acts with
  | nil => intro s _; exact le_refl _
  | cons a rest ih =>
    intro s h
    exact le_trans (ih _ (applyAct_stop_mono faults cfg count s a h))
      (phiW_step faults cfg count s a h)

/-- `finished` is absorbing for the worker. -/
lemma finished_replicate (faults : Nat → Bool) (cfg : Cfg) (count : Nat) :
    ∀ (m : Nat) (s : WState), s.pc = .finished →
      runActs faults cfg count s (List.replicate m .w) = s := by
  intro m
  induction m with
  | zero => intro s _; rfl
  | succ m' ih =>
    intro s hpc
    have hstep : workerStep faults cfg count s = s := by
      obtain ⟨p, st, pe, se, idx, jr, ch, cs, zb, zr, pc⟩ := s
      dsimp only at hpc
      subst hpc
      rfl
    show runActs faults cfg count
      (applyAct faults cfg count s .w) (List.replicate m' .w) = s
    rw [show applyAct faults cfg count s .w = s from hstep]
    exact ih s hpc

/-- C4 counterexample.  The claim fails on the unguarded text commands:
cancel a count-1 job while the worker sits between packaging and the final
status assignment (stop signal set, status `cancelled`, never yet `done`),
then `/pause` and `/resume` it (both apply unconditionally after the
ownership check); the worker's final `if status != "cancelled"` then sees
`running` and sets status `done` — with the stop signal still set. -/
theorem c4_counterexample :
    (runActs noFaults defaultCfg 1 initW
       (List.replicate 10 .w ++ [.cancelCmd])).stop_event = true
    ∧ (runActs noFaults defaultCfg 1 initW
         (List.replicate 10 .w ++ [.cancelCmd])).status = .cancelled
    ∧ (runActs noFaults defaultCfg 1 initW
         ((List.replicate 10 .w ++ [.cancelCmd])
            ++ [.pauseCmd, .resumeCmd, .w])).status = .done
    ∧ (runActs noFaults defaultCfg 1 initW
         ((List.replicate 10 .w ++ [.cancelCmd])
            ++ [.pauseCmd, .resumeCmd, .w])).stop_event = true := by decide

/-- C4 as amended.  Setting the stop signal always coincides with the
status becoming `cancelled` (both cancel paths set the two together), and
the signal is never cleared.  Under the guarded inline-callback controls,
once the stop signal is set the status can never become `done` (it is
`cancelled`, or `failed` when a derivation fault crashed the worker), and
`processed` increases at most once more — the one in-flight row — freezing
after the next per-row check.  The unguarded `/pause` + `/resume` text
commands issued after a cancel can defeat this (see the counterexample). -/
theorem c4_stop_never_done_guarded (faults : Nat → Bool) (cfg : Cfg)
    (count : Nat) (acts acts' : List Act)
    (hg : ∀ a ∈ acts, GuardedAct a) (hg' : ∀ a ∈ acts', GuardedAct a)
    (hstop : (runActs faults cfg count initW acts).stop_event = true) :
    (∀ (t : WState) (a : Act),
       (applyAct faults cfg count t a).stop_event = true →
       t.stop_event = true
       ∨ (applyAct faults cfg count t a).status = .cancelled)
    ∧ ((runActs faults cfg count initW acts).status = .cancelled
       ∨ ((runActs faults cfg count initW acts).pc = .finished
          ∧ (runActs faults cfg count initW acts).status = .failed))
    ∧ (runActs faults cfg count
         (runActs faults cfg count initW acts) acts').status ≠ .done
    ∧ (runActs faults cfg count
         (runActs faults cfg count initW acts) acts').stop_event = true
    ∧ (runActs faults cfg count
         (runActs faults cfg count initW acts) acts').processed
        ≤ (runActs faults cfg count initW acts).processed + 1 := by
  have hinv : StopInv (runActs faults cfg count initW acts) :=
    stopinv_run faults cfg count acts initW hg stopinv_init
  have hstop2 : (runActs faults cfg count
      (runActs faults cfg count initW acts) acts').stop_event = true :=
    runActs_stop_mono faults cfg count acts' _ hstop
  have hinv2 : StopInv (runActs faults cfg count
      (runActs faults cfg count initW acts) acts') :=
    stopinv_run faults cfg count acts' _ hg' hinv
  refine ⟨fun t a => stop_set_means_cancelled faults cfg count t a,
          hinv hstop, ?_, hstop2, ?_⟩
  · rcases hinv2 hstop2 with h | ⟨_, h⟩ <;> rw [h] <;> decide
  · calc (runActs faults cfg count
        (runActs faults cfg count initW acts) acts').processed
        ≤ phiW (runActs faults cfg count
            (runActs faults cfg count initW acts) acts') :=
          processed_le_phiW _
      _ ≤ phiW (runActs faults cfg count initW acts) :=
          phiW_run faults cfg count acts' _ hstop
      _ ≤ (runActs faults cfg count initW acts).processed + 1 := by
          unfold phiW
          split_ifs <;> omega

/-- Witness for C4-as-amended: a count-2 job cancelled via the callback
right after its first row, then five more worker steps. -/
theorem c4_witness :
    ((∀ a ∈ List.replicate 6 Act.w ++ [Act.cancelCb], GuardedAct a)
     ∧ (∀ a ∈ List.replicate 5 Act.w, GuardedAct a)
     ∧ (runActs noFaults defaultCfg 2 initW
          (List.replicate 6 .w ++ [.cancelCb])).stop_event = true)
    ∧ ((∀ (t : WState) (a : Act),
          (applyAct noFaults defaultCfg 2 t a).stop_event = true →
          t.stop_event = true
          ∨ (applyAct noFaults defaultCfg 2 t a).status = .cancelled)
       ∧ ((runActs noFaults defaultCfg 2 initW
             (List.replicate 6 .w ++ [.cancelCb])).status = .cancelled
          ∨ ((runActs noFaults defaultCfg 2 initW
                (List.replicate 6 .w ++ [.cancelCb])).pc = .finished
             ∧ (runActs noFaults defaultCfg 2 initW
                  (List.replicate 6 .w ++ [.cancelCb])).status = .failed))
       ∧ (runActs noFaults defaultCfg 2
            (runActs noFaults defaultCfg 2 initW
               (List.replicate 6 .w ++ [.cancelCb]))
            (List.replicate 5 .w)).status ≠ .done
       ∧ (runActs noFaults defaultCfg 2
            (runActs noFaults defaultCfg 2 initW
               (List.replicate 6 .w ++ [.cancelCb]))
            (List.replicate 5 .w)).stop_event = true
       ∧ (runActs noFaults defaultCfg 2
            (runActs noFaults defaultCfg 2 initW
               (List.replicate 6 .w ++ [.cancelCb]))
            (List.replicate 5 .w)).processed
           ≤ (runActs noFaults defaultCfg 2 initW
                (List.replicate 6 .w ++ [.cancelCb])).processed + 1) :=
  ⟨⟨by decide, by decide, by decide⟩,
   c4_stop_never_done_guarded noFaults defaultCfg 2
     (List.replicate 6 .w ++ [.cancelCb]) (List.replicate 5 .w)
     (by decide) (by decide) (by decide)⟩

/-- C3 counterexample.  Cancel a count-2 job via the inline callback after
its first row: the job reaches status `cancelled` with no ZIP yet, but the
worker still packages the partially-written CSV into a ZIP archive and
records it on the job (`zip_paths`) — output *is* produced after
`cancelled`. -/
theorem c3_counterexample :
    (runActs noFaults defaultCfg 2 initW
       (List.replicate 6 .w ++ [.cancelCb])).status = .cancelled
    ∧ (runActs noFaults defaultCfg 2 initW
         (List.replicate 6 .w ++ [.cancelCb])).zipsBuilt = 0
    ∧ (runActs noFaults defaultCfg 2 initW
         (List.replicate 6 .w ++ [.cancelCb])).zipRec = none
    ∧ (runActs noFaults defaultCfg 2 initW
         ((List.replicate 6 .w ++ [.cancelCb])
            ++ List.replicate 5 .w)).status = .cancelled
    ∧ (runActs noFaults defaultCfg 2 initW
         ((List.replicate 6 .w ++ [.cancelCb])
            ++ List.replicate 5 .w)).zipsBuilt = 1
    ∧ (runActs noFaults defaultCfg 2 initW
         ((List.replicate 6 .w ++ [.cancelCb])
            ++ List.replicate 5 .w)).zipRec = some 1 := by decide

/-- C3 as amended.  If the stop signal is observed at the very top of the
loop, before any chunk was started, the worker cancels with no rows, no
CSVs, no ZIPs and nothing recorded.  Once cancelled (stop signal set),
under the guarded controls the job never becomes `done` and at most one
in-flight row is still written.  However, CSV files already created when
the stop is observed mid-chunk — including the partial one — are still
packaged into ZIP archives and recorded on the job record (they are merely
not uploaded). -/
theorem c3_cancelled_semantics (faults : Nat → Bool) (cfg : Cfg)
    (count : Nat) (m : Nat) (acts : List Act)
    (hg : ∀ a ∈ acts, GuardedAct a)
    (hstop : (runActs faults cfg count initW acts).stop_event = true) :
    runActs faults cfg count initW
        (.cancelCb :: .w :: .w :: List.replicate m .w)
      = ⟨0, .cancelled, false, true, 0, 0, 0, 0, 0, none, .finished⟩
    ∧ (runActs faults cfg count initW acts).status ≠ .done
    ∧ (∀ acts' : List Act, (∀ a ∈ acts', GuardedAct a) →
         (runActs faults cfg count
            (runActs faults cfg count initW acts) acts').status ≠ .done
         ∧ (runActs faults cfg count
              (runActs faults cfg count initW acts) acts').processed
             ≤ (runActs faults cfg count initW acts).processed + 1)
    ∧ (runActs noFaults defaultCfg 2 initW
         ((List.replicate 6 .w ++ [.cancelCb])
            ++ List.replicate 5 .w)).status = .cancelled
    ∧ (runActs noFaults defaultCfg 2 initW
         ((List.replicate 6 .w ++ [.cancelCb])
            ++ List.replicate 5 .w)).zipsBuilt = numZips defaultCfg 1
    ∧ (runActs noFaults defaultCfg 2 initW
         ((List.replicate 6 .w ++ [.cancelCb])
            ++ List.replicate 5 .w)).zipRec
        = some (numZips defaultCfg 1) := by
  have hinv : StopInv (runActs faults cfg count initW acts) :=
    stopinv_run faults cfg count acts initW hg stopinv_init
  refine ⟨?_, ?_, fun acts' hg' => ⟨?_, ?_⟩, by decide, by decide, by decide⟩
  · -- cancel observed before any work: the run is fully determined
    have hw1 : applyAct faults cfg count
        ⟨0, .cancelled, false, true, 0, 0, 0, 0, 0, none, .outerCheck⟩ .w
        = ⟨0, .cancelled, false, true, 0, 0, 0, 0, 0, none,
           .packageZips⟩ := by
      by_cases h : 0 < count <;> simp [applyAct, workerStep, h]
    show runActs faults cfg count
      (applyAct faults cfg count
        (applyAct faults cfg count
          (applyAct faults cfg count initW .cancelCb) .w) .w)
      (List.replicate m .w) = _
    rw [show applyAct faults cfg count initW .cancelCb
          = ⟨0, .cancelled, false, true, 0, 0, 0, 0, 0, none, .outerCheck⟩
        from rfl]
    rw [hw1]
    rw [show applyAct faults cfg count
          ⟨0, .cancelled, false, true, 0, 0, 0, 0, 0, none, .packageZips⟩ .w
          = ⟨0, .cancelled, false, true, 0, 0, 0, 0, 0, none, .finished⟩
        from rfl]
    exact finished_replicate faults cfg count m _ rfl
  · rcases hinv hstop with h | ⟨_, h⟩ <;> rw [h] <;> decide
  · have hstop2 := runActs_stop_mono faults cfg count acts' _ hstop
    have hinv2 : StopInv (runActs faults cfg count
        (runActs faults cfg count initW acts) acts') :=
      stopinv_run faults cfg count acts' _ hg' hinv
    rcases hinv2 hstop2 with h | ⟨_, h⟩ <;> rw [h] <;> decide
  · calc (runActs faults cfg count
        (runActs faults cfg count initW acts) acts').processed
        ≤ phiW (runActs faults cfg count
            (runActs faults cfg count initW acts) acts') :=
          processed_le_phiW _
      _ ≤ phiW (runActs faults cfg count initW acts) :=
          phiW_run faults cfg count acts' _ hstop
      _ ≤ (runActs faults cfg count initW acts).processed + 1 := by
          unfold phiW
          split_ifs <;> omega

/-- Witness for C3-as-amended at the same concrete cancelled run. -/
theorem c3_witness :
    ((∀ a ∈ List.replicate 6 Act.w ++ [Act.cancelCb], GuardedAct a)
     ∧ (runActs noFaults defaultCfg 2 initW
          (List.replicate 6 .w ++ [.cancelCb])).stop_event = true)
    ∧ (runActs noFaults defaultCfg 2 initW
         (.cancelCb :: .w :: .w :: List.replicate 4 .w)
       = ⟨0, .cancelled, false, true, 0, 0, 0, 0, 0, none, .finished⟩
       ∧ (runActs noFaults defaultCfg 2 initW
            (List.replicate 6 .w ++ [.cancelCb])).status ≠ .done
       ∧ (∀ acts' : List Act, (∀ a ∈ acts', GuardedAct a) →
            (runActs noFaults defaultCfg 2
               (runActs noFaults defaultCfg 2 initW
                  (List.replicate 6 .w ++ [.cancelCb])) acts').status ≠ .done
            ∧ (runActs noFaults defaultCfg 2
                 (runActs noFaults defaultCfg 2 initW
                    (List.replicate 6 .w ++ [.cancelCb])) acts').processed
                ≤ (runActs noFaults defaultCfg 2 initW
                     (List.replicate 6 .w ++ [.cancelCb])).processed + 1)
       ∧ (runActs noFaults defaultCfg 2 initW
            ((List.replicate 6 .w ++ [.cancelCb])
               ++ List.replicate 5 .w)).status = .cancelled
       ∧ (runActs noFaults defaultCfg 2 initW
            ((List.replicate 6 .w ++ [.cancelCb])
               ++ List.replicate 5 .w)).zipsBuilt = numZips defaultCfg 1
       ∧ (runActs noFaults defaultCfg 2 initW
            ((List.replicate 6 .w ++ [.cancelCb])
               ++ List.replicate 5 .w)).zipRec
           = some (numZips defaultCfg 1)) :=
  ⟨⟨by decide, by decide⟩,
   c3_cancelled_semantics noFaults defaultCfg 2 4
     (List.replicate 6 .w ++ [.cancelCb]) (by decide) (by decide)⟩

end BulkWalletGen
